import Mathlib

/-!
Verification of the Appointment Assistant pipeline.

This file is a shallow embedding of the repository's Python sources
(`data.py`, `middleware.py`, `tools.py`, `graph.py`, `hitl.py`, `main.py`)
into Lean 4, followed by theorems settling the behavioural claims about the
pipeline.

Modelling conventions:
* Python strings are Lean `String`s; character-level operations (`lower`,
  `upper`, the `re` character classes `\w`, `\d`, `\s`, word boundaries)
  are modelled over the ASCII range, which is the range the source's data
  and keyword tables inhabit.  `Char.toLower` / `Char.toUpper` from core
  implement exactly Python's ASCII case mapping.
* The process-wide mutable dict `APPOINTMENTS` is modelled as an explicit
  association list (`Store`) threaded through every operation; Python dicts
  preserve insertion order, and assignment to an existing key updates in
  place, which `dictSet` reproduces.
* Nondeterministic externals (the LLM intent classifier, the LLM response
  drafter, `uuid`, `datetime.now()`, and the interactive human reviewer)
  are universally quantified parameters, matching the spec's treatment of
  them as opaque capabilities.
* Python dict results are modelled as structures; fields that a result dict
  only sometimes carries default to `""` / `false` / `none`, mirroring
  `.get(key, default)` at the use sites.  Result fields that only echo
  record details for the external response drafter are folded into the
  `message` text they also appear in.
-/

/-- The ASCII apostrophe, built from its code point so it can be embedded in
the source's message strings. -/
def apos : String := String.singleton (Char.ofNat 39)

/-- Python's `str.lower()` (ASCII range, as exercised by the source data). -/
def pyLower (s : String) : String := String.mk (s.data.map Char.toLower)

/-- Python's `str.upper()` (ASCII range, as exercised by the source data). -/
def pyUpper (s : String) : String := String.mk (s.data.map Char.toUpper)

/-- Does `needle` occur at the head of `hay`? -/
def strStarts : List Char → List Char → Bool
  | [], _ => true
  | _ :: _, [] => false
  | a :: as, b :: bs => a == b && strStarts as bs

/-- Does `needle` occur as a contiguous substring of `hay`?  (Python's
`needle in hay`.) -/
def strFind (needle : List Char) : List Char → Bool
  | [] => strStarts needle []
  | c :: t => strStarts needle (c :: t) || strFind needle t

/-- Python's `needle in hay` on strings. -/
def pyIn (needle hay : String) : Bool := strFind needle.data hay.data

/-- Index of the first occurrence of `needle` in `hay` (Python `str.index`). -/
def idxOf (needle : List Char) : List Char → Option Nat
  | [] => if strStarts needle [] then some 0 else none
  | c :: t => if strStarts needle (c :: t) then some 0 else (idxOf needle t).map (· + 1)

/-- Python's `\s` class: `[ \t\n\r\f\v]` (ASCII range). -/
def isSpaceCh (c : Char) : Bool :=
  c == ' ' || c == '\t' || c == '\n' || c == '\r' || c == '\x0b' || c == '\x0c'

/-- Python's `str.strip()` (whitespace at both ends removed). -/
def pyStrip (s : String) : String :=
  String.mk (((s.data.dropWhile isSpaceCh).reverse.dropWhile isSpaceCh).reverse)

/-- Python's `repr` of a list of plain strings, as interpolated by f-strings
in `middleware.py`. -/
def pyRepr (l : List String) : String :=
  "[" ++ String.intercalate ", " (l.map (fun s => apos ++ s ++ apos)) ++ "]"

/-- Python's `str.zfill`. -/
def zfill (width : Nat) (s : String) : String :=
  if width ≤ s.length then s else String.mk (List.replicate (width - s.length) '0') ++ s

/-- Truthiness of Python's `x or ""` used on optional strings (`None` and
`""` are both falsy and map to `""`). -/
def pyOr (o : Option String) : String :=
  match o with
  | some s => s
  | none => ""

/-- Python's `x or d` on an optional string with default `d`. -/
def pyOrD (o : Option String) (d : String) : String :=
  match o with
  | some s => if s == "" then d else s
  | none => d

/-- Truthiness of an optional string (`if not extra.get(k)`). -/
def truthy (o : Option String) : Bool :=
  match o with
  | some s => s != ""
  | none => false

/-! ## data.py -/

/-- One appointment record (`data.py`).  `booked_at` exists only on records
created by `book_appointment` in the source; the pre-seeded records carry
`""` here. -/
structure Appointment where
  patient_name : String
  patient_id : String
  date : String
  time : String
  doctor : String
  department : String
  type : String
  status : String
  phone : String
  email : String
  booked_at : String := ""
deriving DecidableEq, Repr

/-- The process-wide `APPOINTMENTS` dict, as an insertion-ordered
association list. -/
abbrev Store := List (String × Appointment)

/-- Python dict lookup `d.get(k, None)`. -/
def dictGet (d : Store) (k : String) : Option Appointment :=
  (d.find? (fun p => p.1 == k)).map (·.2)

/-- Python dict assignment `d[k] = v`: update in place if the key exists
(order preserved), else append. -/
def dictSet (d : Store) (k : String) (v : Appointment) : Store :=
  if d.any (fun p => p.1 == k) then d.map (fun p => if p.1 == k then (k, v) else p)
  else d ++ [(k, v)]

/-- The three seeded records of `APPOINTMENTS`. -/
def APPOINTMENTS : Store :=
  [ ("APT001",
     { patient_name := "John Davis", patient_id := "P1001", date := "2026-03-05",
       time := "10:00 AM", doctor := "Dr. Emily Carter", department := "Radiology",
       type := "MRI Scan", status := "confirmed", phone := "555-***-1234",
       email := "m***@email.com" }),
    ("APT002",
     { patient_name := "John Davis", patient_id := "P1002", date := "2026-03-07",
       time := "2:30 PM", doctor := "Dr. James Lee", department := "Pathology",
       type := "Blood Test", status := "confirmed", phone := "555-***-5678",
       email := "m***@email.com" }),
    ("APT003",
     { patient_name := "John Davis", patient_id := "P1003", date := "2026-03-10",
       time := "9:00 AM", doctor := "Dr. Sarah Patel", department := "Radiology",
       type := "X-Ray", status := "confirmed", phone := "555-***-9012",
       email := "m***@email.com" }) ]

/-- One bookable slot (`data.py`). -/
structure Slot where
  slot_id : String
  date : String
  time : String
  doctor : String
  department : String
  type : String
deriving DecidableEq, Repr

/-- The fixed slot catalog `AVAILABLE_SLOTS`. -/
def AVAILABLE_SLOTS : List Slot :=
  [ { slot_id := "SLT001", date := "2026-03-12", time := "9:00 AM",
      doctor := "Dr. Emily Carter", department := "Radiology", type := "MRI Scan" },
    { slot_id := "SLT002", date := "2026-03-12", time := "11:00 AM",
      doctor := "Dr. James Lee", department := "Pathology", type := "Blood Test" },
    { slot_id := "SLT003", date := "2026-03-13", time := "2:00 PM",
      doctor := "Dr. Sarah Patel", department := "Radiology", type := "X-Ray" },
    { slot_id := "SLT004", date := "2026-03-14", time := "10:00 AM",
      doctor := "Dr. Kevin Marsh", department := "Cardiology", type := "ECG" },
    { slot_id := "SLT005", date := "2026-03-15", time := "3:00 PM",
      doctor := "Dr. Lisa Nguyen", department := "Neurology", type := "Consultation" },
    { slot_id := "SLT006", date := "2026-03-17", time := "8:30 AM",
      doctor := "Dr. Emily Carter", department := "Radiology", type := "MRI Scan" },
    { slot_id := "SLT007", date := "2026-03-18", time := "1:00 PM",
      doctor := "Dr. Kevin Marsh", department := "Cardiology", type := "ECG" } ]

/-- `PREP_INSTRUCTIONS` keyed by procedure type. -/
def PREP_INSTRUCTIONS : List (String × String) :=
  [ ("MRI Scan",
     "1. Remove all metal objects (jewelry, piercings, hearing aids).\n2. Avoid eating 4 hours before the scan.\n3. Wear comfortable, loose-fitting clothing with no metal.\n4. Inform staff of any implants, pacemakers, or claustrophobia.\n5. Arrive 15 minutes early to complete paperwork."),
    ("Blood Test",
     "1. Fast for at least 8-12 hours before the test (water is allowed).\n2. Avoid strenuous exercise the night before.\n3. Take prescribed medications as normal unless told otherwise.\n4. Bring your insurance card, photo ID, and referral letter.\n5. Stay hydrated — drink plenty of water before your visit."),
    ("X-Ray",
     "1. No special preparation is needed in most cases.\n2. Remove metal objects, jewelry, and clothing with zippers.\n3. Inform staff immediately if you are or may be pregnant.\n4. Wear comfortable, easy-to-remove clothing.\n5. Bring any previous imaging results if available."),
    ("ECG",
     "1. Avoid applying lotions or oils to your chest area on the day.\n2. Wear a two-piece outfit for easy access to the chest.\n3. Avoid caffeine and cigarettes for at least 3 hours before.\n4. Continue all prescribed medications unless told otherwise.\n5. Arrive 10 minutes early to rest before the procedure."),
    ("Consultation",
     "1. Bring a list of all current medications and dosages.\n2. Prepare a summary of your symptoms and when they started.\n3. Bring previous test results, scans, or medical records.\n4. Write down any questions you want to ask the doctor.\n5. Bring your insurance card and a valid photo ID.") ]

/-- `EMERGENCY_KEYWORDS`. -/
def EMERGENCY_KEYWORDS : List String :=
  [ "chest pain", "heart attack", "can" ++ apos ++ "t breathe", "cannot breathe",
    "difficulty breathing", "stroke", "unconscious", "not breathing",
    "severe bleeding", "overdose", "poisoning", "seizure", "choking",
    "emergency", "dying", "collapsed", "fainted", "suicidal", "suicide" ]

/-- `MEDICAL_ADVICE_KEYWORDS`. -/
def MEDICAL_ADVICE_KEYWORDS : List String :=
  [ "diagnose", "diagnosis", "do i have", "what disease", "what condition",
    "is it cancer", "should i take", "what medication", "what medicine",
    "treat my", "treatment for", "cure for", "symptoms of", "medical advice",
    "what is wrong with me", "what" ++ apos ++ "s wrong with me" ]

/-- `data.get_appointment`: lookup by upper-cased id. -/
def get_appointment (store : Store) (apt_id : String) : Option Appointment :=
  dictGet store (pyUpper apt_id)

/-- `data.get_prep`: prep text by type with the generic fallback. -/
def get_prep (appointment_type : String) : String :=
  match (PREP_INSTRUCTIONS.find? (fun p => p.1 == appointment_type)).map (·.2) with
  | some s => s
  | none => "No specific preparation instructions found. Please contact the clinic for details."

/-- `data.get_slot`: first slot whose id matches case-insensitively. -/
def get_slot (slot_id : String) : Option Slot :=
  AVAILABLE_SLOTS.find? (fun slot => pyUpper slot.slot_id == pyUpper slot_id)

/-- `data.is_emergency`. -/
def is_emergency (text : String) : Bool :=
  EMERGENCY_KEYWORDS.any (fun kw => pyIn kw (pyLower text))

/-- `data.is_medical_advice_request`. -/
def is_medical_advice_request (text : String) : Bool :=
  MEDICAL_ADVICE_KEYWORDS.any (fun kw => pyIn kw (pyLower text))


/-! ## middleware.py — PII masking

The four `PII_PATTERNS` regexes are compiled into deterministic matchers
over `List Char`.  Each matcher takes the wordness of the preceding
character (for the leading `\b`) and the current suffix, and returns the
length of the match starting at the head of the suffix, if any.  The
patterns are deterministic despite regex backtracking: in every greedy
sub-expression the characters of the repeated class are disjoint from the
required successor character, so no shorter repetition can ever succeed
where the maximal one fails. -/

/-- Python's `\d` (ASCII range). -/
def isDigitCh (c : Char) : Bool := c.isDigit

/-- Python's `\w` (ASCII range): `[A-Za-z0-9_]`. -/
def isWordCh (c : Char) : Bool := c.isAlphanum || c == '_'

/-- The phone separator class `[-.\s]`. -/
def isSepCh (c : Char) : Bool := c == '-' || c == '.' || isSpaceCh c

/-- `[a-z]` under `re.IGNORECASE`. -/
def isLetterCh (c : Char) : Bool := c.isAlpha

/-- The email local-part class `[\w.+-]`. -/
def localCh (c : Char) : Bool := isWordCh c || c == '.' || c == '+' || c == '-'

/-- The email domain class `[\w-]`. -/
def domCh (c : Char) : Bool := isWordCh c || c == '-'

/-- Consume exactly `n` digits, returning the remaining suffix. -/
def takeDigits : Nat → List Char → Option (List Char)
  | 0, s => some s
  | _ + 1, [] => none
  | n + 1, c :: t => if isDigitCh c then takeDigits n t else none

/-- `[-.\s]?`: consume one separator if present (a separator is never a
digit, so greedy consumption is exact). -/
def optSep : List Char → List Char
  | [] => []
  | c :: t => if isSepCh c then t else c :: t

/-- Wordness of the character just after a match (`false` at end of text),
for the trailing `\b`. -/
def wordHead : List Char → Bool
  | [] => false
  | c :: _ => isWordCh c

/-- `\b\d{3}[-.\s]?\d{3}[-.\s]?\d{4}\b` (the "phone" pattern).  The first
matched character is a digit (a word character), so the leading `\b` is
exactly `pw = false`. -/
def tryPhone (pw : Bool) (s : List Char) : Option Nat :=
  if pw then none else
  match takeDigits 3 s with
  | none => none
  | some s1 =>
    match takeDigits 3 (optSep s1) with
    | none => none
    | some s3 =>
      match takeDigits 4 (optSep s3) with
      | none => none
      | some s5 => if wordHead s5 then none else some (s.length - s5.length)

/-- `\b[\w.+-]+@[\w-]+\.[a-z]{2,}\b` under `IGNORECASE` (the "email"
pattern).  `@` is not in the local class and `.` is not in the domain
class, so each greedy run is maximal. -/
def tryEmail (pw : Bool) (s : List Char) : Option Nat :=
  match s with
  | [] => none
  | c :: _ =>
    if !localCh c then none
    else if pw == isWordCh c then none
    else
      match s.dropWhile localCh with
      | '@' :: s2 =>
        match s2 with
        | d :: _ =>
          if !domCh d then none
          else
            match s2.dropWhile domCh with
            | '.' :: s4 =>
              if 2 ≤ (s4.takeWhile isLetterCh).length && !wordHead (s4.dropWhile isLetterCh)
              then some (s.length - (s4.dropWhile isLetterCh).length) else none
            | _ => none
        | [] => none
      | _ => none

/-- `\b\d{3}-\d{2}-\d{4}\b` (the "ssn" pattern). -/
def trySSN (pw : Bool) (s : List Char) : Option Nat :=
  if pw then none else
  match takeDigits 3 s with
  | some ('-' :: s1) =>
    match takeDigits 2 s1 with
    | some ('-' :: s2) =>
      match takeDigits 4 s2 with
      | some s3 => if wordHead s3 then none else some (s.length - s3.length)
      | _ => none
    | _ => none
  | _ => none

/-- `(0[1-9]|1[0-2])`: the dob month alternation (branches are disjoint on
their first character, so the alternation is a dispatch on it). -/
def dobMonth : List Char → Option (List Char)
  | a :: b :: t =>
    if a == '0' then (if isDigitCh b && b != '0' then some t else none)
    else if a == '1' then (if b == '0' || b == '1' || b == '2' then some t else none)
    else none
  | _ => none

/-- `(0[1-9]|[12]\d|3[01])`: the dob day alternation. -/
def dobDay : List Char → Option (List Char)
  | a :: b :: t =>
    if a == '0' then (if isDigitCh b && b != '0' then some t else none)
    else if a == '1' || a == '2' then (if isDigitCh b then some t else none)
    else if a == '3' then (if b == '0' || b == '1' then some t else none)
    else none
  | _ => none

/-- The dob separator class: a slash or a hyphen. -/
def dobSep : List Char → Option (List Char)
  | c :: t => if c == '/' || c == '-' then some t else none
  | [] => none

/-- The "dob" pattern: month alternation, separator, day alternation,
separator, then four digits, with `\b` at both ends. -/
def tryDOB (pw : Bool) (s : List Char) : Option Nat :=
  if pw then none else
  match dobMonth s with
  | none => none
  | some s1 =>
    match dobSep s1 with
    | none => none
    | some s2 =>
      match dobDay s2 with
      | none => none
      | some s3 =>
        match dobSep s3 with
        | none => none
        | some s4 =>
          match takeDigits 4 s4 with
          | none => none
          | some s5 => if wordHead s5 then none else some (s.length - s5.length)

/-- `re.sub` for one pattern: scan the original text left to right,
replacing each leftmost non-overlapping match and resuming after its end
(`skip` counts the characters of the current match still to drop; `pw` is
the wordness of the preceding original character).  The second component
records whether any match was found, which is exactly when the source's
`re.search` guard fires. -/
def maskGo (try_ : Bool → List Char → Option Nat) (repl : List Char) :
    Nat → Bool → List Char → List Char × Bool
  | _, _, [] => ([], false)
  | k + 1, _, c :: t => maskGo try_ repl k (isWordCh c) t
  | 0, pw, c :: t =>
    match try_ pw (c :: t) with
    | some n =>
      let pr := maskGo try_ repl (n - 1) (isWordCh c) t
      (repl ++ pr.1, true)
    | none =>
      let pr := maskGo try_ repl 0 (isWordCh c) t
      (c :: pr.1, pr.2)

/-- One full `re.sub` pass from the start of the text (before the first
character counts as non-word for `\b`). -/
def maskSub (try_ : Bool → List Char → Option Nat) (repl : List Char)
    (s : List Char) : List Char × Bool :=
  maskGo try_ repl 0 false s

/-- The four replacement strings of `PII_PATTERNS`. -/
def PHONE_REPL : List Char := "***-***-****".data

def EMAIL_REPL : List Char := "***@***.***".data

def SSN_REPL : List Char := "***-**-****".data

def DOB_REPL : List Char := "**/**/****".data

/-- Result dict of `pii_middleware`. -/
structure PiiResult where
  original_text : String
  masked_text : String
  pii_detected : Bool
  pii_types : List String
deriving DecidableEq, Repr

/-- `middleware.pii_middleware`: apply the four patterns in dict order
(phone, email, ssn, dob), each on the output of the previous one,
recording which categories were found. -/
def pii_middleware (text : String) : PiiResult :=
  let p1 := maskSub tryPhone PHONE_REPL text.data
  let p2 := maskSub tryEmail EMAIL_REPL p1.1
  let p3 := maskSub trySSN SSN_REPL p2.1
  let p4 := maskSub tryDOB DOB_REPL p3.1
  let types := (if p1.2 then ["phone"] else []) ++ (if p2.2 then ["email"] else [])
    ++ (if p3.2 then ["ssn"] else []) ++ (if p4.2 then ["dob"] else [])
  { original_text := text, masked_text := String.mk p4.1,
    pii_detected := !types.isEmpty, pii_types := types }

/-! ## middleware.py — moderation, tool-call limit, combined checks -/

/-- `BLOCKED_KEYWORDS`. -/
def BLOCKED_KEYWORDS : List String :=
  [ "kill", "bomb", "attack", "hack", "illegal",
    "fraud", "abuse", "threat", "weapon", "explosive" ]

/-- Result dict of `moderation_middleware`. -/
structure ModResult where
  approved : Bool
  reason : Option String
  triggered_keywords : List String
deriving DecidableEq, Repr

/-- `middleware.moderation_middleware`. -/
def moderation_middleware (text : String) : ModResult :=
  let triggered := BLOCKED_KEYWORDS.filter (fun kw => pyIn kw (pyLower text))
  if !triggered.isEmpty then
    { approved := false,
      reason := some ("Input contains inappropriate content: " ++ pyRepr triggered),
      triggered_keywords := triggered }
  else
    { approved := true, reason := none, triggered_keywords := [] }

/-- `MAX_TOOL_CALLS`. -/
def MAX_TOOL_CALLS : Nat := 5

/-- Result dict of `tool_call_limit_middleware`. -/
structure LimitResult where
  allowed : Bool
  reason : Option String
deriving DecidableEq, Repr

/-- `middleware.tool_call_limit_middleware` (the counter is a non-negative
running count in every caller). -/
def tool_call_limit_middleware (current_count : Nat) : LimitResult :=
  if current_count ≥ MAX_TOOL_CALLS then
    { allowed := false,
      reason := some ("Tool call limit of " ++ toString MAX_TOOL_CALLS
        ++ " reached. Escalating to human agent.") }
  else
    { allowed := true, reason := none }

/-- Result dict of `run_middleware_checks`; `pii_detected`/`pii_types` are
absent from the two failure dicts in the source, modelled by their
defaults here. -/
structure MwResult where
  passed : Bool
  stage : String
  reason : Option String
  clean_input : String
  pii_detected : Bool := false
  pii_types : List String := []
deriving DecidableEq, Repr

/-- `middleware.run_middleware_checks`: moderation, then PII masking, then
the tool-call limit, short-circuiting in that order. -/
def run_middleware_checks (user_input : String) (tool_call_count : Nat) : MwResult :=
  let mod_result := moderation_middleware user_input
  if !mod_result.approved then
    { passed := false, stage := "moderation", reason := mod_result.reason,
      clean_input := user_input }
  else
    let pii_result := pii_middleware user_input
    let clean_input := pii_result.masked_text
    let limit_result := tool_call_limit_middleware tool_call_count
    if !limit_result.allowed then
      { passed := false, stage := "tool_limit", reason := limit_result.reason,
        clean_input := clean_input }
    else
      { passed := true, stage := "all_passed", reason := none,
        clean_input := clean_input, pii_detected := pii_result.pii_detected,
        pii_types := pii_result.pii_types }


/-! ## tools.py -/

/-- An `ActionResult` dict.  Every tool result carries `success` and
`message`; `appointment_id`/`patient_name`/`needs_slot` appear on the
results that set them and default to `""`/`false` otherwise (mirroring
`.get(key, default)` at the consumers).  Fields that only echo record
details for the external response drafter (`details`, `appointments`,
`slots`, `instructions`, old/new slot values, `cancelled_date`, `reason`,
`type`, `doctor`, `date`, `time`) are folded into the `message` text that
also carries them. -/
structure ToolResult where
  success : Bool := false
  message : String := ""
  appointment_id : String := ""
  patient_name : String := ""
  needs_slot : Bool := false
deriving DecidableEq, Repr

/-- `tools.lookup_appointment`. -/
def lookup_appointment (store : Store) (apt_id : String) : ToolResult :=
  match get_appointment store apt_id with
  | some apt =>
    { success := true, appointment_id := pyUpper apt_id,
      message := "Appointment " ++ pyUpper apt_id ++ " found.\n  Patient  : "
        ++ apt.patient_name ++ "\n  Type     : " ++ apt.type
        ++ "\n  Doctor   : " ++ apt.doctor ++ "\n  Date     : " ++ apt.date
        ++ " at " ++ apt.time ++ "\n  Status   : " ++ pyUpper apt.status }
  | none =>
    { success := false,
      message := "No appointment found with ID " ++ apos ++ pyUpper apt_id ++ apos
        ++ ". Please check the ID and try again." }

/-- `tools.view_all_appointments`. -/
def view_all_appointments (store : Store) : ToolResult :=
  if store.isEmpty then
    { success := false, message := "No appointments found in the system." }
  else
    let summary := store.map (fun p =>
      "  [" ++ p.1 ++ "] " ++ p.2.type ++ " with " ++ p.2.doctor ++ " on "
        ++ p.2.date ++ " at " ++ p.2.time ++ " — STATUS: " ++ pyUpper p.2.status)
    { success := true,
      message := "Here are all appointments on file:\n" ++ String.intercalate "\n" summary }

/-- `tools.view_available_slots` (the catalog is a fixed constant). -/
def view_available_slots : ToolResult :=
  if AVAILABLE_SLOTS.isEmpty then
    { success := false, message := "No available slots at this time. Please call the clinic." }
  else
    let lines := AVAILABLE_SLOTS.map (fun slot =>
      "  [" ++ slot.slot_id ++ "] " ++ slot.type ++ " with " ++ slot.doctor
        ++ " (" ++ slot.department ++ ") — " ++ slot.date ++ " at " ++ slot.time)
    { success := true,
      message := "Available appointment slots:\n" ++ String.intercalate "\n" lines }

/-- `tools.book_appointment`.  The generated patient id (`uuid`) and the
`booked_at` timestamp (`datetime.now()`) are nondeterministic externals,
passed in as parameters.  Returns the result dict and the updated store. -/
def book_appointment (store : Store) (patient_name slot_id : String)
    (patient_uuid booked_at : String) : ToolResult × Store :=
  match get_slot slot_id with
  | none =>
    ({ success := false,
       message := "Slot " ++ apos ++ pyUpper slot_id ++ apos
         ++ " not found. Please check the slot ID." }, store)
  | some slot =>
    let new_id := "APT" ++ zfill 3 (toString (store.length + 1))
    let record : Appointment :=
      { patient_name := patient_name, patient_id := "P" ++ patient_uuid,
        date := slot.date, time := slot.time, doctor := slot.doctor,
        department := slot.department, type := slot.type, status := "confirmed",
        phone := "***-***-****", email := "***@***.***", booked_at := booked_at }
    ({ success := true, appointment_id := new_id, patient_name := patient_name,
       message := "Appointment successfully booked!\n  Appointment ID : " ++ new_id
         ++ "\n  Patient        : " ++ patient_name
         ++ "\n  Type           : " ++ slot.type
         ++ "\n  Doctor         : " ++ slot.doctor
         ++ "\n  Date & Time    : " ++ slot.date ++ " at " ++ slot.time
         ++ "\n  Status         : CONFIRMED" },
     dictSet store new_id record)

/-- `tools.reschedule_appointment`. -/
def reschedule_appointment (store : Store) (apt_id new_date new_time : String) :
    ToolResult × Store :=
  let apt_id := pyUpper apt_id
  match get_appointment store apt_id with
  | none =>
    ({ success := false,
       message := "Cannot reschedule: Appointment " ++ apos ++ apt_id ++ apos
         ++ " not found." }, store)
  | some apt =>
    if apt.status == "cancelled" then
      ({ success := false,
         message := "Cannot reschedule: Appointment " ++ apos ++ apt_id ++ apos
           ++ " has already been cancelled." }, store)
    else
      let old_date := apt.date
      let old_time := apt.time
      ({ success := true, appointment_id := apt_id, patient_name := apt.patient_name,
         message := "Appointment " ++ apt_id ++ " successfully rescheduled.\n  Patient  : "
           ++ apt.patient_name ++ "\n  Old slot : " ++ old_date ++ " at " ++ old_time
           ++ "\n  New slot : " ++ new_date ++ " at " ++ new_time },
       dictSet store apt_id { apt with date := new_date, time := new_time, status := "rescheduled" })

/-- `tools.cancel_appointment`. -/
def cancel_appointment (store : Store) (apt_id : String)
    (reason : String := "Not provided") : ToolResult × Store :=
  let apt_id := pyUpper apt_id
  match get_appointment store apt_id with
  | none =>
    ({ success := false,
       message := "Cannot cancel: Appointment " ++ apos ++ apt_id ++ apos
         ++ " not found." }, store)
  | some apt =>
    if apt.status == "cancelled" then
      ({ success := false,
         message := "Appointment " ++ apos ++ apt_id ++ apos ++ " is already cancelled." },
       store)
    else
      ({ success := true, appointment_id := apt_id, patient_name := apt.patient_name,
         message := "Appointment " ++ apt_id ++ " successfully cancelled.\n  Patient : "
           ++ apt.patient_name ++ "\n  Date    : " ++ apt.date ++ " at " ++ apt.time
           ++ "\n  Reason  : " ++ reason },
       dictSet store apt_id { apt with status := "cancelled" })

/-- `tools.get_prep_instructions` (no store mutation). -/
def get_prep_instructions (store : Store) (apt_id : String) : ToolResult :=
  let apt_id := pyUpper apt_id
  match get_appointment store apt_id with
  | none =>
    { success := false,
      message := "Cannot find prep instructions: Appointment " ++ apos ++ apt_id ++ apos
        ++ " not found." }
  | some apt =>
    let instructions := get_prep apt.type
    { success := true, appointment_id := apt_id, patient_name := apt.patient_name,
      message := "Preparation instructions for " ++ apt.patient_name ++ apos ++ "s "
        ++ apt.type ++ " with " ++ apt.doctor ++ " on " ++ apt.date ++ ":\n\n"
        ++ instructions }


/-! ## graph.py — state and nodes

The LLM classifier (`intent_node`'s `llm.invoke` + JSON parse), the LLM
response drafter (`hitl_node`'s draft), and the interactive reviewer
(`input()`) are external capabilities; they enter as parameters.  A JSON
parse failure in the source yields `{"intent": "unknown"}`, which is one
possible value of the `classify` parameter. -/

/-- The structured output of the intent classifier (`parsed` in
`intent_node`); missing JSON keys are `none`. -/
structure ParsedIntent where
  intent : String := "unknown"
  appointment_id : Option String := none
  slot_id : Option String := none
  patient_name : Option String := none
  new_date : Option String := none
  new_time : Option String := none
  reason : Option String := none

/-- `AppointmentState` (the `TypedDict` in `graph.py`).  The `extra_info`
dict is flattened into its three keys.  `middleware_reason` is an optional
string because the passing middleware result stores Python `None` there. -/
structure AppointmentState where
  user_input : String
  clean_input : String
  intent : String
  appointment_id : String
  slot_id : String
  patient_name : String
  extra_new_date : Option String
  extra_new_time : Option String
  extra_reason : Option String
  tool_result : ToolResult
  middleware_passed : Bool
  middleware_reason : Option String
  hitl_approved : Bool
  hitl_response : String
  final_status : String
  route_taken : List String
  tool_call_count : Nat
  run_id : String
deriving DecidableEq, Repr

/-- `graph.input_node`: emergency check, then advice check, then the
middleware chain, in that precedence order. -/
def input_node (st : AppointmentState) : AppointmentState :=
  let st := { st with route_taken := st.route_taken ++ ["input_node"] }
  if is_emergency st.user_input then
    { st with middleware_passed := false,
              middleware_reason := some "EMERGENCY_DETECTED",
              clean_input := st.user_input }
  else if is_medical_advice_request st.user_input then
    { st with middleware_passed := false,
              middleware_reason := some "MEDICAL_ADVICE_REQUEST",
              clean_input := st.user_input }
  else
    let result := run_middleware_checks st.user_input st.tool_call_count
    { st with middleware_passed := result.passed,
              clean_input := result.clean_input,
              middleware_reason := result.reason }

/-- `graph.emergency_node`. -/
def emergency_node (st : AppointmentState) : AppointmentState :=
  { st with route_taken := st.route_taken ++ ["emergency_node"],
            final_status := "ESCALATE",
            hitl_response :=
              "\nEMERGENCY ALERT\n-----------------------------------------------\n"
              ++ "This system is not equipped to handle medical emergencies.\n\n"
              ++ "Please take immediate action:\n"
              ++ "  -> Call 911 (or your local emergency number) NOW\n"
              ++ "  -> Go to your nearest Emergency Room immediately\n"
              ++ "  -> If in Canada, call 911 or visit the nearest ER\n\n"
              ++ "Do not wait. Please seek immediate professional care.\n"
              ++ "-----------------------------------------------" }

/-- `graph.medical_advice_node`. -/
def medical_advice_node (st : AppointmentState) : AppointmentState :=
  { st with route_taken := st.route_taken ++ ["medical_advice_node"],
            final_status := "ESCALATE",
            hitl_response :=
              "Thank you for reaching out to Mojisola Akinniyi Medical Office.\n\n"
              ++ "I am an appointment assistant and I am not able to provide "
              ++ "medical diagnoses, clinical advice, or treatment recommendations. "
              ++ "Providing such advice without a proper clinical assessment could "
              ++ "be harmful to your health.\n\nWhat I recommend:\n"
              ++ "  -> Book a consultation with one of our doctors\n"
              ++ "  -> Contact your family physician directly\n"
              ++ "  -> For urgent concerns, visit a walk-in clinic\n"
              ++ "  -> For emergencies, call 911 immediately\n\n"
              ++ "I am happy to help you book or manage an appointment right now.\n\n"
              ++ "Best regards,\nMichelle Mary\nMojisola Akinniyi Medical Office" }

/-- `graph.intent_node`: run the external classifier on `clean_input` and
store its fields (`None`-or-empty optional strings collapse to `""` via
Python's `or ""`). -/
def intent_node (classify : String → ParsedIntent) (st : AppointmentState) :
    AppointmentState :=
  let st := { st with route_taken := st.route_taken ++ ["intent_node"] }
  let parsed := classify st.clean_input
  { st with intent := parsed.intent,
            appointment_id := pyOr parsed.appointment_id,
            slot_id := pyOr parsed.slot_id,
            patient_name := pyOr parsed.patient_name,
            extra_new_date := parsed.new_date,
            extra_new_time := parsed.new_time,
            extra_reason := parsed.reason }

/-- `graph.action_node`: increment the tool-call counter and dispatch on
the intent.  `patient_uuid`/`booked_at` feed `book_appointment`'s
nondeterministic externals.  Returns the state and the updated store. -/
def action_node (patient_uuid booked_at : String) (st : AppointmentState)
    (store : Store) : AppointmentState × Store :=
  let st := { st with route_taken := st.route_taken ++ ["action_node"],
                      tool_call_count := st.tool_call_count + 1 }
  if st.intent == "view_appointment" then
    if st.appointment_id != "" then
      ({ st with tool_result := lookup_appointment store st.appointment_id }, store)
    else
      ({ st with tool_result := view_all_appointments store }, store)
  else if st.intent == "view_slots" then
    ({ st with tool_result := view_available_slots }, store)
  else if st.intent == "book" then
    if st.slot_id == "" then
      ({ st with tool_result :=
          { success := false, needs_slot := true,
            message := "To book an appointment, please choose a slot ID "
              ++ "from the list below and tell me your name.\n\n"
              ++ view_available_slots.message } }, store)
    else if st.patient_name == "" then
      ({ st with tool_result :=
          { success := false,
            message := "Please provide your full name to complete the booking." } }, store)
    else
      let r := book_appointment store st.patient_name st.slot_id patient_uuid booked_at
      ({ st with tool_result := r.1 }, r.2)
  else if st.intent == "reschedule" then
    if st.appointment_id == "" then
      ({ st with tool_result :=
          { success := false,
            message := "Please provide your appointment ID to reschedule (e.g. APT001)." } },
       store)
    else if !truthy st.extra_new_date || !truthy st.extra_new_time then
      ({ st with tool_result :=
          { success := false,
            message := "To reschedule, I need both a new date and a new time.\nExample: "
              ++ apos ++ "Reschedule APT001 to 2026-03-20 at 11:00 AM" ++ apos } }, store)
    else
      let r := reschedule_appointment store st.appointment_id
        (pyOr st.extra_new_date) (pyOr st.extra_new_time)
      ({ st with tool_result := r.1 }, r.2)
  else if st.intent == "cancel" then
    if st.appointment_id == "" then
      ({ st with tool_result :=
          { success := false,
            message := "Please provide your appointment ID to cancel (e.g. APT002)." } },
       store)
    else
      let r := cancel_appointment store st.appointment_id (pyOrD st.extra_reason "Not provided")
      ({ st with tool_result := r.1 }, r.2)
  else if st.intent == "prep" then
    if st.appointment_id == "" then
      ({ st with tool_result :=
          { success := false,
            message := "Please provide your appointment ID to get prep instructions (e.g. APT003)." } },
       store)
    else
      ({ st with tool_result := get_prep_instructions store st.appointment_id }, store)
  else
    ({ st with tool_result :=
        { success := false,
          message := "I am sorry, I did not understand your request.\nI can help you with:\n"
            ++ "  -> Book a new appointment\n  -> View your existing appointments\n"
            ++ "  -> Reschedule an appointment\n  -> Cancel an appointment\n"
            ++ "  -> Get preparation instructions\n  -> View available appointment slots" } },
     store)

/-- `graph.needs_info_node` (every tool result dict in `action_node` and
`tools.py` sets `message`, so the `.get` default never fires). -/
def needs_info_node (st : AppointmentState) : AppointmentState :=
  { st with route_taken := st.route_taken ++ ["needs_info_node"],
            final_status := "NEED_INFO",
            hitl_response := st.tool_result.message }

/-- `graph.escalate_node`: dispatch on the middleware reason; the
emergency and medical-advice sub-nodes append their own names, the generic
branch appends `escalate_node`. -/
def escalate_node (st : AppointmentState) : AppointmentState :=
  if st.middleware_reason == some "EMERGENCY_DETECTED" then emergency_node st
  else if st.middleware_reason == some "MEDICAL_ADVICE_REQUEST" then medical_advice_node st
  else
    let reasonText := pyOrD st.middleware_reason "Policy or safety limit reached."
    { st with route_taken := st.route_taken ++ ["escalate_node"],
              final_status := "ESCALATE",
              hitl_response :=
                "Your request has been escalated to a human agent who will "
                ++ "contact you shortly.\nReason: " ++ reasonText
                ++ "\n\nBest regards,\nMichelle Mary\nMojisola Akinniyi Medical Office" }

/-- The sign-off markers removed from LLM drafts in `hitl_node`. -/
def SIGNOFF_PLACEHOLDERS : List String :=
  [ "Best regards,", "Sincerely,", "Kind regards,", "Warm regards,", "Yours sincerely," ]

/-- One step of `hitl_node`'s sign-off stripping loop: truncate at the
first occurrence and strip. -/
def cutAtSignoff (draft : String) (placeholder : String) : String :=
  match idxOf placeholder.data draft.data with
  | some i => pyStrip (String.mk (draft.data.take i))
  | none => draft

/-- `graph.hitl_node`: strip the external draft, remove drafter sign-offs,
append the canonical sign-off, then apply the reviewer's decision
(`choice` is the raw `input()` string; `edited` the joined edit lines). -/
def hitl_node (draft_content choice edited : String) (st : AppointmentState) :
    AppointmentState :=
  let st := { st with route_taken := st.route_taken ++ ["hitl_node"] }
  let draft_response := SIGNOFF_PLACEHOLDERS.foldl cutAtSignoff (pyStrip draft_content)
  let draft_response := draft_response
    ++ "\n\nBest regards,\nMichelle Mary\nMojisola Akinniyi Medical Office"
  if choice == "1" then
    { st with hitl_approved := true, hitl_response := draft_response,
              final_status := "READY" }
  else if choice == "2" then
    { st with hitl_response := pyStrip edited
                ++ "\n\nBest regards,\nMichelle Mary\nMojisola Akinniyi Medical Office",
              hitl_approved := true, final_status := "READY" }
  else
    { st with hitl_approved := false, final_status := "ESCALATE",
              hitl_response := "Your request has been escalated to a senior agent for review."
                ++ "\n\nBest regards,\nMichelle Mary\nMojisola Akinniyi Medical Office" }

/-- `graph.route_after_input`. -/
def route_after_input (st : AppointmentState) : String :=
  if !st.middleware_passed then "escalate_node" else "intent_node"

/-- `graph.route_after_intent` (unconditional). -/
def route_after_intent (_ : AppointmentState) : String := "action_node"

/-- `graph.route_after_action` (`tool_result.get("success", False)`; the
`success` field defaults to `false` exactly when the key would be absent). -/
def route_after_action (st : AppointmentState) : String :=
  if !st.tool_result.success then "needs_info_node" else "hitl_node"

/-- The compiled graph of `build_graph`, as one pass over the wiring:
`input_node`, then by `route_after_input` either `escalate_node` (END) or
`intent_node` → (`route_after_intent`) → `action_node`, then by
`route_after_action` either `needs_info_node` or `hitl_node` (END). -/
def runGraph (classify : String → ParsedIntent) (patient_uuid booked_at : String)
    (draft_content choice edited : String) (st0 : AppointmentState)
    (store : Store) : AppointmentState × Store :=
  let st1 := input_node st0
  if route_after_input st1 == "escalate_node" then
    (escalate_node st1, store)
  else
    let st2 := intent_node classify st1
    if route_after_intent st2 == "action_node" then
      let r := action_node patient_uuid booked_at st2 store
      if route_after_action r.1 == "needs_info_node" then
        (needs_info_node r.1, r.2)
      else
        (hitl_node draft_content choice edited r.1, r.2)
    else
      (st2, store)

/-! ## main.py and hitl.py -/

/-- The per-request initial state built in `main.run_single_request`
(`run_id` comes from `generate_run_id`, an external). -/
def initial_state (user_input run_id : String) : AppointmentState :=
  { user_input := user_input, clean_input := "", intent := "",
    appointment_id := "", slot_id := "", patient_name := "",
    extra_new_date := none, extra_new_time := none, extra_reason := none,
    tool_result := {}, middleware_passed := false, middleware_reason := some "",
    hitl_approved := false, hitl_response := "", final_status := "",
    route_taken := [], tool_call_count := 0, run_id := run_id }

/-- `main.run_single_request`: one request through the graph from the
fresh initial state. -/
def run_single_request (user_input run_id : String)
    (classify : String → ParsedIntent) (patient_uuid booked_at : String)
    (draft_content choice edited : String) (store : Store) :
    AppointmentState × Store :=
  runGraph classify patient_uuid booked_at draft_content choice edited
    (initial_state user_input run_id) store

/-- The persisted trace record of `hitl.write_trace` (the JSON file write
itself is I/O; `timestamp` is the `datetime.now()` external).  Every field
read by `write_trace` is present on the state, so the `.get` defaults
never fire. -/
structure Trace where
  run_id : String
  timestamp : String
  final_status : String
  intent : String
  route_taken : List String
  tool_calls : Nat
  pii_in_input : String
  appointment_id : String
  middleware_passed : Bool
  hitl_approved : Bool
  final_response : String
deriving DecidableEq, Repr

/-- `hitl.write_trace`: serialize the final state; `pii_in_input` is the
test `clean_input != user_input`. -/
def write_trace (timestamp : String) (st : AppointmentState) : Trace :=
  { run_id := st.run_id, timestamp := timestamp, final_status := st.final_status,
    intent := st.intent, route_taken := st.route_taken,
    tool_calls := st.tool_call_count,
    pii_in_input := if st.clean_input != st.user_input then "[MASKED]" else "none",
    appointment_id := st.appointment_id, middleware_passed := st.middleware_passed,
    hitl_approved := st.hitl_approved, final_response := st.hitl_response }


/-! ## Infrastructure for the PII idempotence proof

A position-indexed view of one `re.sub` pass.  `MRel Q rq pw u u'` says
that scanning `u` with matcher `Q` (preceded by a character of wordness
`pw`) produces `u'`: unmatched characters are copied, every match is
replaced by `rq` and skipped.  `CleanFrom P pw t` says `P` matches at no
position of `t`. -/

/-- Wordness of the character at position `i` (`false` past the end). -/
def wordAt (s : List Char) (i : Nat) : Bool :=
  match s.get? i with
  | some c => isWordCh c
  | none => false

/-- Wordness of the character preceding position `i`, with ambient
wordness `pw` before position 0. -/
def pwAt (pw : Bool) (t : List Char) (i : Nat) : Bool :=
  if i = 0 then pw else wordAt t (i - 1)

/-- The matcher `P` matches at no position of `t` (in ambient context
`pw`). -/
def CleanFrom (P : Bool → List Char → Option Nat) (pw : Bool) (t : List Char) : Prop :=
  ∀ i, P (pwAt pw t i) (t.drop i) = none

/-- One `re.sub` pass as a relation between input and output. -/
inductive MRel (Q : Bool → List Char → Option Nat) (rq : List Char) :
    Bool → List Char → List Char → Prop
  | nil (pw : Bool) : MRel Q rq pw [] []
  | frag (pw : Bool) (c : Char) (t out : List Char) :
      Q pw (c :: t) = none → MRel Q rq (isWordCh c) t out →
      MRel Q rq pw (c :: t) (c :: out)
  | hit (pw : Bool) (s out : List Char) (n : Nat) :
      Q pw s = some n → 1 ≤ n → n ≤ s.length →
      MRel Q rq (wordAt s (n - 1)) (s.drop n) out → MRel Q rq pw s (rq ++ out)

/-- The shared shape of the four PII matchers, as used by the idempotence
argument: matches are at least 2 long and within bounds, never contain a
star, satisfy the leading word boundary, end in a word character followed
by a non-word position, and are stable under changing the text beyond the
match as long as the lookahead position keeps its wordness (or its exact
character). -/
structure MatcherFacts (P : Bool → List Char → Option Nat) : Prop where
  bounds : ∀ pw s n, P pw s = some n → 2 ≤ n ∧ n ≤ s.length
  noStar : ∀ pw s n, P pw s = some n → ∀ i, i < n → s.get? i ≠ some '*'
  lead : ∀ pw c t n, P pw (c :: t) = some n → pw ≠ isWordCh c
  lastWord : ∀ pw s n, P pw s = some n → wordAt s (n - 1) = true
  nextNonword : ∀ pw s n, P pw s = some n → wordAt s n = false
  stable : ∀ pw s t n, P pw s = some n → t.take n = s.take n →
      (t.get? n = s.get? n ∨ (wordAt t n = false ∧ wordAt s n = false)) →
      P pw t = some n

/-- The shape of the four replacement strings: they start and end with a
star and never hold two adjacent non-star characters, so no fragment of a
replacement can take part in any later match. -/
def ReplOK (r : List Char) : Prop :=
  r.head? = some '*' ∧ r.getLast? = some '*' ∧
  ∀ i, i < r.length → (r.get? i = some '*' ∨ r.get? (i + 1) = some '*' ∨ i + 1 = r.length)

/-- The claim's side condition, as a computation: running any of the four
pattern searches over any of the four replacement strings finds nothing. -/
def replacement_pii_free : Bool :=
  [PHONE_REPL, EMAIL_REPL, SSN_REPL, DOB_REPL].all fun r =>
    !(maskSub tryPhone PHONE_REPL r).2 && !(maskSub tryEmail EMAIL_REPL r).2
      && !(maskSub trySSN SSN_REPL r).2 && !(maskSub tryDOB DOB_REPL r).2

/-! ## Helper lemmas -/

theorem toNat_ofNat_lt {n : Nat} (h : n < 55296) : (Char.ofNat n).toNat = n := by
  rw [Char.ofNat, dif_pos (Or.inl h)]
  simp [Char.ofNatAux, Char.toNat, UInt32.ofNat', UInt32.toNat, BitVec.toNat_ofNatLt]

theorem toUpper_toUpper (c : Char) : c.toUpper.toUpper = c.toUpper := by
  unfold Char.toUpper
  by_cases h : c.toNat ≥ 97 ∧ c.toNat ≤ 122
  · rw [if_pos h]
    have hv : (Char.ofNat (c.toNat - 32)).toNat = c.toNat - 32 :=
      toNat_ofNat_lt (by omega)
    rw [hv, if_neg (by omega)]
  · rw [if_neg h, if_neg h]

theorem map_toUpper_idem (l : List Char) :
    (l.map Char.toUpper).map Char.toUpper = l.map Char.toUpper := by
  induction l with
  | nil => rfl
  | cons c t ih => simp [toUpper_toUpper, ih]

theorem pyUpper_idem (s : String) : pyUpper (pyUpper s) = pyUpper s := by
  unfold pyUpper
  exact congrArg String.mk (map_toUpper_idem s.data)

theorem dictGet_dictSet (d : Store) (k : String) (v : Appointment) :
    dictGet (dictSet d k v) k = some v := by
  unfold dictSet
  by_cases h : d.any (fun p => p.1 == k)
  · rw [if_pos h]
    induction d with
    | nil => simp at h
    | cons p t ih =>
      by_cases hp : p.1 == k
      · simp only [List.map_cons, if_pos hp]
        simp [dictGet, List.find?]
      · simp only [List.any_cons, hp, Bool.false_or] at h
        simp only [List.map_cons, if_neg hp]
        simp only [dictGet, List.find?, hp] at ih ⊢
        exact ih h
  · rw [if_neg h]
    induction d with
    | nil => simp [dictGet, List.find?]
    | cons p t ih =>
      simp only [List.any_cons, Bool.or_eq_true, not_or] at h
      have hp : (p.1 == k) = false := by
        cases hq : p.1 == k
        · rfl
        · exact absurd hq h.1
      simp only [List.cons_append, dictGet, List.find?, hp] at ih ⊢
      exact ih (by simp [h.2])

/-! ## Claims -/

/-- Claim C1: any input containing an emergency keyword drives the pipeline
to final_status ESCALATE with middleware_reason EMERGENCY_DETECTED,
regardless of any other content; the intent and action stages never run,
the tool-call counter stays 0, the store is untouched, and the route is
exactly [input_node, emergency_node]. -/
theorem C1_emergency_dominates (input run_id : String)
    (classify : String → ParsedIntent) (pu bk draft choice edited : String)
    (store : Store) (h : is_emergency input = true) :
    (run_single_request input run_id classify pu bk draft choice edited store).1.final_status
        = "ESCALATE" ∧
    (run_single_request input run_id classify pu bk draft choice edited store).1.middleware_reason
        = some "EMERGENCY_DETECTED" ∧
    (run_single_request input run_id classify pu bk draft choice edited store).1.tool_call_count
        = 0 ∧
    (run_single_request input run_id classify pu bk draft choice edited store).1.route_taken
        = ["input_node", "emergency_node"] ∧
    (run_single_request input run_id classify pu bk draft choice edited store).2 = store := by
  simp [run_single_request, runGraph, input_node, initial_state, h,
    route_after_input, escalate_node, emergency_node]

/-- Claim C1 witness: the end-to-end emergency scenario at a concrete
input. -/
theorem C1_emergency_dominates_witness :
    is_emergency "I have chest pain" = true ∧
    ((run_single_request "I have chest pain" "RUN1" (fun _ => {}) "U1" "T1" "d" "1" ""
        APPOINTMENTS).1.final_status = "ESCALATE" ∧
      (run_single_request "I have chest pain" "RUN1" (fun _ => {}) "U1" "T1" "d" "1" ""
        APPOINTMENTS).1.middleware_reason = some "EMERGENCY_DETECTED" ∧
      (run_single_request "I have chest pain" "RUN1" (fun _ => {}) "U1" "T1" "d" "1" ""
        APPOINTMENTS).1.tool_call_count = 0 ∧
      (run_single_request "I have chest pain" "RUN1" (fun _ => {}) "U1" "T1" "d" "1" ""
        APPOINTMENTS).1.route_taken = ["input_node", "emergency_node"] ∧
      (run_single_request "I have chest pain" "RUN1" (fun _ => {}) "U1" "T1" "d" "1" ""
        APPOINTMENTS).2 = APPOINTMENTS) :=
  ⟨by decide,
   C1_emergency_dominates "I have chest pain" "RUN1" (fun _ => {}) "U1" "T1" "d" "1" ""
     APPOINTMENTS (by decide)⟩

/-- Claim C2: any input containing a medical-advice phrase but no emergency
keyword drives the pipeline to final_status ESCALATE with
middleware_reason MEDICAL_ADVICE_REQUEST, even when moderation-blocked
keywords are present (the advice check precedes the middleware chain). -/
theorem C2_advice_precedes_moderation (input run_id : String)
    (classify : String → ParsedIntent) (pu bk draft choice edited : String)
    (store : Store) (he : is_emergency input = false)
    (ha : is_medical_advice_request input = true) :
    (run_single_request input run_id classify pu bk draft choice edited store).1.final_status
        = "ESCALATE" ∧
    (run_single_request input run_id classify pu bk draft choice edited store).1.middleware_reason
        = some "MEDICAL_ADVICE_REQUEST" := by
  simp [run_single_request, runGraph, input_node, initial_state, he, ha,
    route_after_input, escalate_node, medical_advice_node]

/-- Claim C2 witness: a medical-advice request that also contains the
moderation-blocked word "illegal" still escalates as advice. -/
theorem C2_advice_precedes_moderation_witness :
    is_emergency "diagnose my illegal rash" = false ∧
    is_medical_advice_request "diagnose my illegal rash" = true ∧
    ((run_single_request "diagnose my illegal rash" "RUN2" (fun _ => {}) "U1" "T1" "d" "1" ""
        APPOINTMENTS).1.final_status = "ESCALATE" ∧
      (run_single_request "diagnose my illegal rash" "RUN2" (fun _ => {}) "U1" "T1" "d" "1" ""
        APPOINTMENTS).1.middleware_reason = some "MEDICAL_ADVICE_REQUEST") :=
  ⟨by decide, by decide,
   C2_advice_precedes_moderation "diagnose my illegal rash" "RUN2" (fun _ => {}) "U1" "T1"
     "d" "1" "" APPOINTMENTS (by decide) (by decide)⟩

theorem str_append_ne_left (a b : String) (h : a ≠ "") : a ++ b ≠ "" := by
  intro hf
  apply h
  have hd := congrArg String.data hf
  rw [String.data_append] at hd
  exact String.ext (List.append_eq_nil.mp hd).1

/-- Claim C3: rescheduling or cancelling an id that is not in the store, or
one whose record is already cancelled, returns success = false with a
non-empty human-readable message and leaves the store unchanged. -/
theorem C3_error_paths_no_mutation (store : Store)
    (apt_id new_date new_time reason : String)
    (h : get_appointment store apt_id = none ∨
      ∃ apt, get_appointment store apt_id = some apt ∧ apt.status = "cancelled") :
    (reschedule_appointment store apt_id new_date new_time).1.success = false ∧
    (reschedule_appointment store apt_id new_date new_time).1.message ≠ "" ∧
    (reschedule_appointment store apt_id new_date new_time).2 = store ∧
    (cancel_appointment store apt_id reason).1.success = false ∧
    (cancel_appointment store apt_id reason).1.message ≠ "" ∧
    (cancel_appointment store apt_id reason).2 = store := by
  have hup : get_appointment store (pyUpper apt_id) = get_appointment store apt_id := by
    unfold get_appointment
    rw [pyUpper_idem]
  rcases h with hnone | ⟨apt, hsome, hstat⟩
  · rw [hnone] at hup
    simp only [reschedule_appointment, cancel_appointment, hup]
    refine ⟨trivial, ?_, trivial, trivial, ?_, trivial⟩
    · exact str_append_ne_left _ _ (str_append_ne_left _ _ (str_append_ne_left _ _
        (str_append_ne_left _ _ (by decide))))
    · exact str_append_ne_left _ _ (str_append_ne_left _ _ (str_append_ne_left _ _
        (str_append_ne_left _ _ (by decide))))
  · rw [hsome] at hup
    have hst : (apt.status == "cancelled") = true := by simp [hstat]
    simp only [reschedule_appointment, cancel_appointment, hup, hst, if_true]
    refine ⟨trivial, ?_, trivial, trivial, ?_, trivial⟩
    · exact str_append_ne_left _ _ (str_append_ne_left _ _ (str_append_ne_left _ _
        (str_append_ne_left _ _ (by decide))))
    · exact str_append_ne_left _ _ (str_append_ne_left _ _ (str_append_ne_left _ _
        (str_append_ne_left _ _ (by decide))))

/-- Claim C3 witness: a non-existent id on the seeded store. -/
theorem C3_error_paths_no_mutation_witness :
    (get_appointment APPOINTMENTS "APT999" = none ∨
      ∃ apt, get_appointment APPOINTMENTS "APT999" = some apt ∧ apt.status = "cancelled") ∧
    ((reschedule_appointment APPOINTMENTS "APT999" "2026-03-20" "11:00 AM").1.success = false ∧
      (reschedule_appointment APPOINTMENTS "APT999" "2026-03-20" "11:00 AM").1.message ≠ "" ∧
      (reschedule_appointment APPOINTMENTS "APT999" "2026-03-20" "11:00 AM").2 = APPOINTMENTS ∧
      (cancel_appointment APPOINTMENTS "APT999" "changed plans").1.success = false ∧
      (cancel_appointment APPOINTMENTS "APT999" "changed plans").1.message ≠ "" ∧
      (cancel_appointment APPOINTMENTS "APT999" "changed plans").2 = APPOINTMENTS) :=
  ⟨Or.inl (by decide),
   C3_error_paths_no_mutation APPOINTMENTS "APT999" "2026-03-20" "11:00 AM" "changed plans"
     (Or.inl (by decide))⟩

/-- Claim C4: booking with a slot id that matches the catalog
case-insensitively and a non-empty name always succeeds, allocates the id
APT followed by the zero-padded pre-insertion record count plus one, and
inserts a confirmed record whose date, time, doctor and type equal the
slot's, with the masked placeholder contact fields. -/
theorem C4_book_success (store : Store) (slot_id name pid bk : String)
    (slot : Slot) (hs : get_slot slot_id = some slot) (_hn : name ≠ "") :
    (book_appointment store name slot_id pid bk).1.success = true ∧
    (book_appointment store name slot_id pid bk).1.appointment_id
        = "APT" ++ zfill 3 (toString (store.length + 1)) ∧
    ∃ rec : Appointment,
      dictGet (book_appointment store name slot_id pid bk).2
          ("APT" ++ zfill 3 (toString (store.length + 1))) = some rec ∧
      rec.date = slot.date ∧ rec.time = slot.time ∧ rec.doctor = slot.doctor ∧
      rec.type = slot.type ∧ rec.status = "confirmed" ∧
      rec.phone = "***-***-****" ∧ rec.email = "***@***.***" := by
  unfold book_appointment
  rw [hs]
  refine ⟨rfl, rfl, ?_⟩
  exact ⟨_, dictGet_dictSet store _ _, rfl, rfl, rfl, rfl, rfl, rfl, rfl⟩

/-- Claim C4 witness: booking slot slt002 (lower case) for Jane Doe on the
seeded three-record store yields APT004 with the slot's details. -/
theorem C4_book_success_witness :
    get_slot "slt002" = some (AVAILABLE_SLOTS.get ⟨1, by decide⟩) ∧
    "Jane Doe" ≠ "" ∧
    ((book_appointment APPOINTMENTS "Jane Doe" "slt002" "AB12CD" "t0").1.success = true ∧
      (book_appointment APPOINTMENTS "Jane Doe" "slt002" "AB12CD" "t0").1.appointment_id
          = "APT" ++ zfill 3 (toString (APPOINTMENTS.length + 1)) ∧
      ∃ rec : Appointment,
        dictGet (book_appointment APPOINTMENTS "Jane Doe" "slt002" "AB12CD" "t0").2
            ("APT" ++ zfill 3 (toString (APPOINTMENTS.length + 1))) = some rec ∧
        rec.date = (AVAILABLE_SLOTS.get ⟨1, by decide⟩).date ∧
        rec.time = (AVAILABLE_SLOTS.get ⟨1, by decide⟩).time ∧
        rec.doctor = (AVAILABLE_SLOTS.get ⟨1, by decide⟩).doctor ∧
        rec.type = (AVAILABLE_SLOTS.get ⟨1, by decide⟩).type ∧
        rec.status = "confirmed" ∧
        rec.phone = "***-***-****" ∧ rec.email = "***@***.***") :=
  ⟨by decide, by decide,
   C4_book_success APPOINTMENTS "slt002" "Jane Doe" "AB12CD" "t0"
     (AVAILABLE_SLOTS.get ⟨1, by decide⟩) (by decide) (by decide)⟩

/-- Claim C6: the run_middleware_checks clean_input contract.  When
moderation fails, the whole result is the failure dict whose clean_input
is the raw, unmasked input; when moderation passes, clean_input equals the
PII-masked text in every outcome (the tool-limit failure for any counter
value, and the all-passed success).  The masking step itself is a total
function in the embedding, so it never fails. -/
theorem C6_clean_input_contract (input : String) (count : Nat) :
    ((moderation_middleware input).approved = false →
      run_middleware_checks input count =
        { passed := false, stage := "moderation",
          reason := (moderation_middleware input).reason, clean_input := input }) ∧
    ((moderation_middleware input).approved = true →
      (run_middleware_checks input count).clean_input = (pii_middleware input).masked_text) := by
  constructor
  · intro hm
    simp [run_middleware_checks, hm]
  · intro hm
    simp only [run_middleware_checks, hm, Bool.not_true, Bool.false_eq_true, if_false]
    by_cases hl : (tool_call_limit_middleware count).allowed
    · simp [hl]
    · simp only [Bool.not_eq_true] at hl
      simp [hl]

/-- Claim C6 witness: a moderation-blocked input returns the raw text; a
clean input with an email is masked even when the counter is at the
limit. -/
theorem C6_clean_input_contract_witness :
    run_middleware_checks "report the fraud" 2 =
      { passed := false, stage := "moderation",
        reason := (moderation_middleware "report the fraud").reason,
        clean_input := "report the fraud" } ∧
    (run_middleware_checks "my email is a@b.com" 7).clean_input
      = "my email is ***@***.***" := by
  constructor
  · exact (C6_clean_input_contract "report the fraud" 2).1 (by decide)
  · have h := (C6_clean_input_contract "my email is a@b.com" 7).2 (by decide)
    rw [h]
    decide

theorem hitl_node_route (d c e : String) (st : AppointmentState) :
    (hitl_node d c e st).route_taken = st.route_taken ++ ["hitl_node"] := by
  unfold hitl_node
  split
  · rfl
  · split <;> rfl

/-- Claim C7: whenever the action stage runs (middleware passed), a failed
tool result routes the request to needs_info_node, final_status becomes
NEED_INFO and the patient-facing response is the failure message verbatim;
a successful tool result routes to hitl_node instead. -/
theorem C7_action_routing (input run_id : String)
    (classify : String → ParsedIntent) (pu bk draft choice edited : String)
    (store : Store)
    (hmw : (input_node (initial_state input run_id)).middleware_passed = true) :
    ((action_node pu bk (intent_node classify (input_node (initial_state input run_id)))
        store).1.tool_result.success = false →
      route_after_action (action_node pu bk
          (intent_node classify (input_node (initial_state input run_id))) store).1
          = "needs_info_node" ∧
      (run_single_request input run_id classify pu bk draft choice edited store).1.final_status
          = "NEED_INFO" ∧
      (run_single_request input run_id classify pu bk draft choice edited store).1.hitl_response
          = (action_node pu bk (intent_node classify (input_node (initial_state input run_id)))
              store).1.tool_result.message) ∧
    ((action_node pu bk (intent_node classify (input_node (initial_state input run_id)))
        store).1.tool_result.success = true →
      route_after_action (action_node pu bk
          (intent_node classify (input_node (initial_state input run_id))) store).1
          = "hitl_node" ∧
      (run_single_request input run_id classify pu bk draft choice edited store).1.route_taken
          = (action_node pu bk (intent_node classify (input_node (initial_state input run_id)))
              store).1.route_taken ++ ["hitl_node"]) := by
  constructor
  · intro hf
    refine ⟨by simp [route_after_action, hf], ?_, ?_⟩ <;>
      simp [run_single_request, runGraph, route_after_input, hmw,
        route_after_intent, route_after_action, hf, needs_info_node]
  · intro ht
    refine ⟨by simp [route_after_action, ht], ?_⟩
    simp [run_single_request, runGraph, route_after_input, hmw,
      route_after_intent, route_after_action, ht, hitl_node_route]

/-- Claim C7 witness: a cancel intent without an appointment id fails in
the action stage and surfaces the failure message verbatim as NEED_INFO. -/
theorem C7_action_routing_witness :
    (input_node (initial_state "please cancel it" "RUN7")).middleware_passed = true ∧
    (action_node "U1" "T1"
        (intent_node (fun _ => { intent := "cancel" })
          (input_node (initial_state "please cancel it" "RUN7")))
        APPOINTMENTS).1.tool_result.success = false ∧
    ((run_single_request "please cancel it" "RUN7" (fun _ => { intent := "cancel" })
        "U1" "T1" "d" "1" "" APPOINTMENTS).1.final_status = "NEED_INFO" ∧
      (run_single_request "please cancel it" "RUN7" (fun _ => { intent := "cancel" })
          "U1" "T1" "d" "1" "" APPOINTMENTS).1.hitl_response
        = "Please provide your appointment ID to cancel (e.g. APT002).") := by
  refine ⟨by decide, by decide, ?_⟩
  have h := (C7_action_routing "please cancel it" "RUN7" (fun _ => { intent := "cancel" })
    "U1" "T1" "d" "1" "" APPOINTMENTS (by decide)).1 (by decide)
  refine ⟨h.2.1, ?_⟩
  rw [h.2.2]
  decide

theorem data_head_append (a b : String) (c : Char) (h : a.data.head? = some c) :
    (a ++ b).data.head? = some c := by
  rw [String.data_append]
  cases ha : a.data with
  | nil => rw [ha] at h; cases h
  | cons x t =>
    rw [ha] at h
    simp at h
    simp [h]

/-- Claim C8: the tool-call-limit check runs only at the INPUT stage; with
the per-request initial state it observes the counter value 0, strictly
below the ceiling 5, so the tool_limit failure branch is unreachable
within a single request: the combined check never reports stage
tool_limit, and the pipeline never records the limit reason. -/
theorem C8_tool_limit_unreachable (input run_id : String) :
    (initial_state input run_id).tool_call_count = 0 ∧
    (tool_call_limit_middleware (initial_state input run_id).tool_call_count).allowed = true ∧
    (run_middleware_checks input (initial_state input run_id).tool_call_count).stage
        ≠ "tool_limit" ∧
    (input_node (initial_state input run_id)).middleware_reason
        ≠ some "Tool call limit of 5 reached. Escalating to human agent." := by
  have hlim : (tool_call_limit_middleware 0).allowed = true := by decide
  refine ⟨rfl, hlim, ?_, ?_⟩
  · show (run_middleware_checks input 0).stage ≠ "tool_limit"
    unfold run_middleware_checks
    by_cases hm : (moderation_middleware input).approved
    · simp [hm, hlim]
    · simp only [Bool.not_eq_true] at hm
      simp [hm]
  · show (input_node (initial_state input run_id)).middleware_reason ≠ _
    unfold input_node initial_state
    by_cases he : is_emergency input
    · simp [he]
    · by_cases ha : is_medical_advice_request input
      · simp [he, ha]
      · simp [he, ha]
        unfold run_middleware_checks
        by_cases hm : (moderation_middleware input).approved
        · simp [hm, hlim]
        · simp only [Bool.not_eq_true] at hm
          unfold moderation_middleware at hm ⊢
          by_cases ht : (BLOCKED_KEYWORDS.filter (fun kw => pyIn kw (pyLower input))).isEmpty
          · simp [ht] at hm
          · simp [ht]
            intro heq
            have h1 := data_head_append "Input contains inappropriate content: "
              (pyRepr (BLOCKED_KEYWORDS.filter (fun kw => pyIn kw (pyLower input))))
              'I' (by decide)
            rw [heq] at h1
            exact absurd h1 (by decide)

/-- Claim C8 witness: the facts of the theorem at a concrete input. -/
theorem C8_tool_limit_unreachable_witness :
    (initial_state "cancel APT002" "RUN8").tool_call_count = 0 ∧
    (tool_call_limit_middleware
        (initial_state "cancel APT002" "RUN8").tool_call_count).allowed = true ∧
    (run_middleware_checks "cancel APT002"
        (initial_state "cancel APT002" "RUN8").tool_call_count).stage ≠ "tool_limit" ∧
    (input_node (initial_state "cancel APT002" "RUN8")).middleware_reason
        ≠ some "Tool call limit of 5 reached. Escalating to human agent." :=
  C8_tool_limit_unreachable "cancel APT002" "RUN8"

/-- Claim C9: every store operation keyed by an appointment or slot id is
case-insensitive in the id: it returns the same result (and the same
updated store) for the id and for its upper-cased form. -/
theorem C9_case_insensitive_ids (store : Store) (id nd nt rs : String) :
    lookup_appointment store id = lookup_appointment store (pyUpper id) ∧
    reschedule_appointment store id nd nt = reschedule_appointment store (pyUpper id) nd nt ∧
    cancel_appointment store id rs = cancel_appointment store (pyUpper id) rs ∧
    get_prep_instructions store id = get_prep_instructions store (pyUpper id) ∧
    get_slot id = get_slot (pyUpper id) := by
  simp [lookup_appointment, get_appointment, reschedule_appointment,
    cancel_appointment, get_prep_instructions, get_slot, pyUpper_idem]

/-- Claim C10: when the emergency or the medical-advice detector fires, the
pipeline copies the raw input into clean_input with no masking, so the
written trace reports pii_in_input as none even if the raw input contains
PII. -/
theorem C10_trace_pii_blind_on_safety (input run_id ts : String)
    (classify : String → ParsedIntent) (pu bk draft choice edited : String)
    (store : Store)
    (h : is_emergency input = true ∨
      (is_emergency input = false ∧ is_medical_advice_request input = true)) :
    (run_single_request input run_id classify pu bk draft choice edited store).1.clean_input
        = input ∧
    (write_trace ts
        (run_single_request input run_id classify pu bk draft choice edited store).1).pii_in_input
      = "none" := by
  rcases h with he | ⟨he, ha⟩
  · simp [run_single_request, runGraph, input_node, initial_state, he,
      route_after_input, escalate_node, emergency_node, write_trace]
  · simp [run_single_request, runGraph, input_node, initial_state, he, ha,
      route_after_input, escalate_node, medical_advice_node, write_trace]

/-- Claim C10 witness: an emergency input carrying a phone number is
escalated with the raw number still in clean_input and the trace saying
none. -/
theorem C10_trace_pii_blind_on_safety_witness :
    (is_emergency "chest pain, call me at 555-123-4567" = true ∨
      (is_emergency "chest pain, call me at 555-123-4567" = false ∧
        is_medical_advice_request "chest pain, call me at 555-123-4567" = true)) ∧
    ((run_single_request "chest pain, call me at 555-123-4567" "RUN10" (fun _ => {})
        "U1" "T1" "d" "1" "" APPOINTMENTS).1.clean_input
        = "chest pain, call me at 555-123-4567" ∧
      (write_trace "TS" (run_single_request "chest pain, call me at 555-123-4567" "RUN10"
          (fun _ => {}) "U1" "T1" "d" "1" "" APPOINTMENTS).1).pii_in_input = "none") :=
  ⟨Or.inl (by decide),
   C10_trace_pii_blind_on_safety "chest pain, call me at 555-123-4567" "RUN10" "TS"
     (fun _ => {}) "U1" "T1" "d" "1" "" APPOINTMENTS (Or.inl (by decide))⟩

/-! ## Position lemmas for the PII matchers -/

theorem lget_drop (l : List Char) (m i : Nat) : (l.drop m).get? i = l.get? (m + i) := by
  induction l generalizing m with
  | nil => simp
  | cons c t ih =>
    cases m with
    | zero => simp
    | succ k => simpa [Nat.succ_add] using ih k

theorem lget_take {l : List Char} {m i : Nat} (h : i < m) : (l.take m).get? i = l.get? i := by
  induction l generalizing m i with
  | nil => simp
  | cons c t ih =>
    cases m with
    | zero => omega
    | succ k =>
      cases i with
      | zero => simp
      | succ j => simpa using ih (by omega)

theorem wordHead_drop (s : List Char) (n : Nat) : wordHead (s.drop n) = wordAt s n := by
  have h0 : (s.drop n).get? 0 = s.get? n := by rw [lget_drop, Nat.add_zero]
  unfold wordHead wordAt
  cases hd : s.drop n with
  | nil =>
    rw [hd] at h0
    rw [← h0]
    rfl
  | cons c t =>
    rw [hd] at h0
    rw [← h0]
    rfl

theorem takeDigits_some : ∀ {k : Nat} {s r : List Char}, takeDigits k s = some r →
    r = s.drop k ∧ k ≤ s.length ∧ ∀ i, i < k → ∃ c, s.get? i = some c ∧ isDigitCh c = true := by
  intro k
  induction k with
  | zero => intro s r h; simp [takeDigits] at h; simp [h.symm]
  | succ m ih =>
    intro s r h
    cases s with
    | nil => simp [takeDigits] at h
    | cons c t =>
      simp only [takeDigits] at h
      by_cases hc : isDigitCh c
      · rw [if_pos hc] at h
        obtain ⟨h1, h2, h3⟩ := ih h
        refine ⟨h1, by simpa using h2, ?_⟩
        intro i hi
        cases i with
        | zero => exact ⟨c, rfl, hc⟩
        | succ j => simpa using h3 j (by omega)
      · rw [if_neg hc] at h; cases h

theorem takeDigits_of : ∀ (k : Nat) (s : List Char), k ≤ s.length →
    (∀ i, i < k → ∃ c, s.get? i = some c ∧ isDigitCh c = true) →
    takeDigits k s = some (s.drop k) := by
  intro k
  induction k with
  | zero => intro s _ _; simp [takeDigits]
  | succ m ih =>
    intro s hk hd
    cases s with
    | nil => simp at hk
    | cons c t =>
      obtain ⟨c0, hc0, hdig⟩ := hd 0 (by omega)
      simp at hc0
      subst hc0
      simp only [takeDigits, if_pos hdig, List.drop_succ_cons]
      exact ih t (by simpa using hk) (fun i hi => by simpa using hd (i + 1) (by omega))

theorem optSep_sep {c : Char} {t : List Char} (h : isSepCh c = true) :
    optSep (c :: t) = t := by
  simp [optSep, h]

theorem optSep_not {s : List Char} (h : ∀ c, s.head? = some c → isSepCh c = false) :
    optSep s = s := by
  cases s with
  | nil => rfl
  | cons c t => simp [optSep, h c rfl]

theorem digit_word {c : Char} (h : isDigitCh c = true) : isWordCh c = true := by
  unfold isWordCh
  unfold isDigitCh at h
  simp [Char.isAlphanum, h]

theorem letter_word {c : Char} (h : isLetterCh c = true) : isWordCh c = true := by
  unfold isWordCh
  unfold isLetterCh at h
  simp [Char.isAlphanum, h]

theorem beq_char_false {c x : Char} (p : Char → Bool) (h : p c = true) (hx : p x = false) :
    (c == x) = false := by
  cases hcx : c == x
  · rfl
  · exact absurd (congrArg p (eq_of_beq hcx)) (by simp [h, hx])

theorem digit_not_sep {c : Char} (h : isDigitCh c = true) : isSepCh c = false := by
  unfold isSepCh isSpaceCh
  rw [beq_char_false _ h (by decide), beq_char_false _ h (by decide),
    beq_char_false _ h (by decide), beq_char_false _ h (by decide),
    beq_char_false _ h (by decide), beq_char_false _ h (by decide),
    beq_char_false _ h (by decide), beq_char_false _ h (by decide)]
  rfl

theorem takeWhile_build {p : Char → Bool} : ∀ {s : List Char} {m : Nat},
    (∀ i, i < m → ∃ c, s.get? i = some c ∧ p c = true) →
    (∀ c, s.get? m = some c → p c = false) →
    s.takeWhile p = s.take m ∧ s.dropWhile p = s.drop m := by
  intro s
  induction s with
  | nil => intro m _ _; simp
  | cons c t ih =>
    intro m hm hstop
    cases m with
    | zero =>
      have hc := hstop c rfl
      simp [List.takeWhile_cons, List.dropWhile_cons, hc]
    | succ k =>
      obtain ⟨c0, hc0, hp⟩ := hm 0 (by omega)
      simp at hc0
      subst hc0
      have hm2 : ∀ i, i < k → ∃ d, t.get? i = some d ∧ p d = true := by
        intro i hi
        have h2 := hm (i + 1) (by omega)
        simpa using h2
      have hstop2 : ∀ d, t.get? k = some d → p d = false := by
        intro d hd
        refine hstop d ?_
        simpa using hd
      have ih2 := ih hm2 hstop2
      simp [List.takeWhile_cons, List.dropWhile_cons, hp, ih2.1, ih2.2]

theorem takeWhile_spec (p : Char → Bool) : ∀ (s : List Char),
    (∀ i, i < (s.takeWhile p).length → ∃ c, s.get? i = some c ∧ p c = true) ∧
    (∀ c, s.get? (s.takeWhile p).length = some c → p c = false) ∧
    s.dropWhile p = s.drop (s.takeWhile p).length := by
  intro s
  induction s with
  | nil => simp
  | cons c t ih =>
    by_cases hc : p c
    · simp only [List.takeWhile_cons, List.dropWhile_cons, hc, if_true, List.length_cons]
      refine ⟨?_, ?_, ?_⟩
      · intro i hi
        cases i with
        | zero => exact ⟨c, rfl, hc⟩
        | succ j => simpa using ih.1 j (by omega)
      · intro d hd
        exact ih.2.1 d (by simpa using hd)
      · simpa using ih.2.2
    · have hc' : p c = false := by simpa using hc
      simp [List.takeWhile_cons, List.dropWhile_cons, hc']

theorem drop_drop_nat (s : List Char) (m k : Nat) : (s.drop m).drop k = s.drop (m + k) := by
  rw [List.drop_drop]

theorem takeDigits_drop_some {k m : Nat} {s r : List Char} (hk : 1 ≤ k)
    (h : takeDigits k (s.drop m) = some r) :
    r = s.drop (m + k) ∧ m + k ≤ s.length ∧
    ∀ i, m ≤ i → i < m + k → ∃ c, s.get? i = some c ∧ isDigitCh c = true := by
  obtain ⟨h1, h2, h3⟩ := takeDigits_some h
  rw [List.length_drop] at h2
  have hm : m ≤ s.length := by
    by_contra hm
    have hlen : (s.drop m).length = 0 := by rw [List.length_drop]; omega
    have : s.drop m = [] := List.eq_nil_of_length_eq_zero hlen
    rw [this] at h
    cases k with
    | zero => omega
    | succ j => simp [takeDigits] at h
  refine ⟨by rw [h1, drop_drop_nat], by omega, ?_⟩
  intro i hi1 hi2
  obtain ⟨c, hc, hd⟩ := h3 (i - m) (by omega)
  rw [lget_drop] at hc
  exact ⟨c, by rw [← hc]; congr 1; omega, hd⟩

theorem takeDigits_drop_of {k m : Nat} {s : List Char} (hk : m + k ≤ s.length)
    (hd : ∀ i, m ≤ i → i < m + k → ∃ c, s.get? i = some c ∧ isDigitCh c = true) :
    takeDigits k (s.drop m) = some (s.drop (m + k)) := by
  rw [← drop_drop_nat]
  refine takeDigits_of k (s.drop m) (by rw [List.length_drop]; omega) ?_
  intro i hi
  rw [lget_drop]
  exact hd (m + i) (by omega) (by omega)

theorem optSep_drop (s : List Char) (m : Nat) :
    (optSep (s.drop m) = s.drop m ∧ ∀ c, s.get? m = some c → isSepCh c = false) ∨
    (optSep (s.drop m) = s.drop (m + 1) ∧ ∃ c, s.get? m = some c ∧ isSepCh c = true) := by
  have h0 : (s.drop m).get? 0 = s.get? m := by rw [lget_drop, Nat.add_zero]
  cases hd : s.drop m with
  | nil =>
    rw [hd] at h0
    left
    refine ⟨rfl, ?_⟩
    intro c hc
    rw [← h0] at hc
    cases hc
  | cons c t =>
    rw [hd] at h0
    have hc : s.get? m = some c := by rw [← h0]; rfl
    have ht : t = s.drop (m + 1) := by
      have h2 := List.tail_drop s m
      rw [hd] at h2
      exact h2
    by_cases hsep : isSepCh c
    · right
      exact ⟨by rw [optSep, if_pos hsep, ht], c, hc, hsep⟩
    · left
      have hsep' : isSepCh c = false := by simpa using hsep
      refine ⟨by rw [optSep, if_neg (by simp [hsep'])], ?_⟩
      intro d hdc
      rw [hc] at hdc
      cases hdc
      exact hsep'

theorem head?_drop (s : List Char) (m : Nat) : (s.drop m).head? = s.get? m := by
  have h0 : (s.drop m).get? 0 = s.get? m := by rw [lget_drop, Nat.add_zero]
  cases hd : s.drop m with
  | nil => rw [hd] at h0; rw [← h0]; rfl
  | cons c t => rw [hd] at h0; rw [← h0]; rfl

theorem drop_cons_of_get {s : List Char} {m : Nat} {c : Char} (h : s.get? m = some c) :
    s.drop m = c :: s.drop (m + 1) := by
  have hh := head?_drop s m
  cases hd : s.drop m with
  | nil => rw [hd] at hh; rw [h] at hh; cases hh
  | cons d t =>
    rw [hd] at hh
    rw [h] at hh
    have hdc : d = c := by
      have := hh
      simp at this
      exact this
    have h2 := List.tail_drop s m
    rw [hd] at h2
    rw [hdc] at h2 ⊢
    rw [← h2]
    rfl

theorem get_eq_of_take_eq {s t : List Char} {n i : Nat} (h : t.take n = s.take n)
    (hi : i < n) : t.get? i = s.get? i := by
  rw [← lget_take (l := t) hi, ← lget_take (l := s) hi, h]

theorem le_length_of_take_eq {s t : List Char} {n : Nat} (h : t.take n = s.take n)
    (hn : n ≤ s.length) : n ≤ t.length := by
  have hl := congrArg List.length h
  rw [List.length_take, List.length_take] at hl
  omega

theorem ne_star_of_class {s : List Char} {i : Nat} (p : Char → Bool) (hp : p '*' = false)
    (h : ∃ c, s.get? i = some c ∧ p c = true) : s.get? i ≠ some '*' := by
  rcases h with ⟨c, hc, hpc⟩
  rw [hc]
  intro he
  have : c = '*' := by injection he
  rw [this, hp] at hpc
  cases hpc

theorem wordAt_eq_true_of {s : List Char} {i : Nat} {c : Char} (hc : s.get? i = some c)
    (hw : isWordCh c = true) : wordAt s i = true := by
  unfold wordAt
  rw [hc]
  exact hw

theorem optSep_drop_not {s : List Char} {m : Nat} {c : Char} (hc : s.get? m = some c)
    (hns : isSepCh c = false) : optSep (s.drop m) = s.drop m := by
  apply optSep_not
  intro d hd
  rw [head?_drop, hc] at hd
  have : d = c := by injection hd with h2; exact h2.symm
  rw [this, hns]

theorem optSep_drop_sep {s : List Char} {m : Nat} {c : Char} (hc : s.get? m = some c)
    (hs : isSepCh c = true) : optSep (s.drop m) = s.drop (m + 1) := by
  rw [drop_cons_of_get hc, optSep_sep hs]

theorem tryPhone_tail {s : List Char} {m n : Nat}
    (h : (match takeDigits 4 (s.drop m) with
          | none => none
          | some s5 => if wordHead s5 then none else some (s.length - s5.length)) = some n) :
    n = m + 4 ∧ m + 4 ≤ s.length ∧ wordAt s n = false ∧
    ∀ i, m ≤ i → i < m + 4 → ∃ c, s.get? i = some c ∧ isDigitCh c = true := by
  split at h
  · exact Option.noConfusion h
  · rename_i s5 h4
    obtain ⟨hs5, hlen, hd⟩ := takeDigits_drop_some (by omega) h4
    subst hs5
    rw [wordHead_drop] at h
    by_cases hw : wordAt s (m + 4)
    · simp [hw] at h
    · have hw' : wordAt s (m + 4) = false := by simpa using hw
      simp only [hw', if_false, Bool.false_eq_true, Option.some.injEq,
        List.length_drop] at h
      have hn : n = m + 4 := by omega
      subst hn
      exact ⟨rfl, hlen, hw', hd⟩

theorem tryPhone_dissect {pw : Bool} {s : List Char} {n : Nat}
    (h : tryPhone pw s = some n) :
    pw = false ∧ n ≤ s.length ∧ wordAt s n = false ∧
    ∃ k1 k2, k1 ≤ 1 ∧ k2 ≤ 1 ∧ n = 10 + k1 + k2 ∧
      (∀ i, i < 3 → ∃ c, s.get? i = some c ∧ isDigitCh c = true) ∧
      (k1 = 1 → ∃ c, s.get? 3 = some c ∧ isSepCh c = true) ∧
      (∀ i, 3 + k1 ≤ i → i < 6 + k1 → ∃ c, s.get? i = some c ∧ isDigitCh c = true) ∧
      (k2 = 1 → ∃ c, s.get? (6 + k1) = some c ∧ isSepCh c = true) ∧
      (∀ i, 6 + k1 + k2 ≤ i → i < n → ∃ c, s.get? i = some c ∧ isDigitCh c = true) := by
  unfold tryPhone at h
  split at h
  · exact Option.noConfusion h
  · rename_i hpw
    split at h
    · exact Option.noConfusion h
    · rename_i s1 h3
      obtain ⟨hs1, hlen3, hd1⟩ := takeDigits_some h3
      subst hs1
      have hpw' : pw = false := by simpa using hpw
      rcases optSep_drop s 3 with ⟨ho1, _⟩ | ⟨ho1, c3, hc3, hsep3⟩
      · rw [ho1] at h
        split at h
        · exact Option.noConfusion h
        · rename_i s3 h6
          obtain ⟨hs3, hlen6, hd2⟩ := takeDigits_drop_some (by omega) h6
          subst hs3
          rcases optSep_drop s (3 + 3) with ⟨ho2, _⟩ | ⟨ho2, c6, hc6, hsep6⟩
          · rw [ho2] at h
            obtain ⟨hn, hlen, hw, hd3⟩ := tryPhone_tail h
            refine ⟨hpw', by omega, hw, 0, 0, by omega, by omega, by omega, hd1,
              fun h01 => absurd h01 (by omega),
              fun i hi1 hi2 => hd2 i (by omega) (by omega),
              fun h01 => absurd h01 (by omega),
              fun i hi1 hi2 => hd3 i (by omega) (by omega)⟩
          · rw [ho2] at h
            obtain ⟨hn, hlen, hw, hd3⟩ := tryPhone_tail h
            refine ⟨hpw', by omega, hw, 0, 1, by omega, by omega, by omega, hd1,
              fun h01 => absurd h01 (by omega),
              fun i hi1 hi2 => hd2 i (by omega) (by omega),
              fun _ => ⟨c6, by simpa using hc6, hsep6⟩,
              fun i hi1 hi2 => hd3 i (by omega) (by omega)⟩
      · rw [ho1] at h
        split at h
        · exact Option.noConfusion h
        · rename_i s3 h6
          obtain ⟨hs3, hlen6, hd2⟩ := takeDigits_drop_some (by omega) h6
          subst hs3
          rcases optSep_drop s (3 + 1 + 3) with ⟨ho2, _⟩ | ⟨ho2, c6, hc6, hsep6⟩
          · rw [ho2] at h
            obtain ⟨hn, hlen, hw, hd3⟩ := tryPhone_tail h
            refine ⟨hpw', by omega, hw, 1, 0, by omega, by omega, by omega, hd1,
              fun _ => ⟨c3, hc3, hsep3⟩,
              fun i hi1 hi2 => hd2 i (by omega) (by omega),
              fun h01 => absurd h01 (by omega),
              fun i hi1 hi2 => hd3 i (by omega) (by omega)⟩
          · rw [ho2] at h
            obtain ⟨hn, hlen, hw, hd3⟩ := tryPhone_tail h
            refine ⟨hpw', by omega, hw, 1, 1, by omega, by omega, by omega, hd1,
              fun _ => ⟨c3, hc3, hsep3⟩,
              fun i hi1 hi2 => hd2 i (by omega) (by omega),
              fun _ => ⟨c6, by simpa using hc6, hsep6⟩,
              fun i hi1 hi2 => hd3 i (by omega) (by omega)⟩

theorem tryPhone_build {s : List Char} {n k1 k2 : Nat}
    (hk1 : k1 ≤ 1) (hk2 : k2 ≤ 1) (hn : n = 10 + k1 + k2) (hlen : n ≤ s.length)
    (hw : wordAt s n = false)
    (hd1 : ∀ i, i < 3 → ∃ c, s.get? i = some c ∧ isDigitCh c = true)
    (hsep1 : k1 = 1 → ∃ c, s.get? 3 = some c ∧ isSepCh c = true)
    (hd2 : ∀ i, 3 + k1 ≤ i → i < 6 + k1 → ∃ c, s.get? i = some c ∧ isDigitCh c = true)
    (hsep2 : k2 = 1 → ∃ c, s.get? (6 + k1) = some c ∧ isSepCh c = true)
    (hd3 : ∀ i, 6 + k1 + k2 ≤ i → i < n → ∃ c, s.get? i = some c ∧ isDigitCh c = true) :
    tryPhone false s = some n := by
  have h3 : takeDigits 3 s = some (s.drop 3) :=
    takeDigits_of 3 s (by omega) hd1
  have ho1 : optSep (s.drop 3) = s.drop (3 + k1) := by
    cases hk1v : k1 with
    | zero =>
      obtain ⟨c, hc, hd⟩ := hd2 3 (by omega) (by omega)
      exact optSep_drop_not hc (digit_not_sep hd)
    | succ j =>
      obtain ⟨c, hc, hs⟩ := hsep1 (by omega)
      rw [optSep_drop_sep hc hs]
      congr 1
      omega
  have h6 : takeDigits 3 (s.drop (3 + k1)) = some (s.drop (3 + k1 + 3)) :=
    takeDigits_drop_of (by omega) (fun i hi1 hi2 => hd2 i (by omega) (by omega))
  have ho2 : optSep (s.drop (3 + k1 + 3)) = s.drop (3 + k1 + 3 + k2) := by
    cases hk2v : k2 with
    | zero =>
      obtain ⟨c, hc, hd⟩ := hd3 (3 + k1 + 3) (by omega) (by omega)
      exact optSep_drop_not hc (digit_not_sep hd)
    | succ j =>
      obtain ⟨c, hc, hs⟩ := hsep2 (by omega)
      have hc' : s.get? (3 + k1 + 3) = some c := by
        rw [show 3 + k1 + 3 = 6 + k1 by omega]
        exact hc
      rw [optSep_drop_sep hc' hs]
      congr 1
      omega
  have h10 : takeDigits 4 (s.drop (3 + k1 + 3 + k2)) = some (s.drop (3 + k1 + 3 + k2 + 4)) :=
    takeDigits_drop_of (by omega) (fun i hi1 hi2 => hd3 i (by omega) (by omega))
  have hnd : 3 + k1 + 3 + k2 + 4 = n := by omega
  rw [hnd] at h10
  unfold tryPhone
  rw [if_neg (by simp)]
  simp only [h3, ho1, h6, ho2, h10, wordHead_drop, hw, Bool.false_eq_true, if_false,
    Option.some.injEq, List.length_drop]
  omega

theorem facts_phone : MatcherFacts tryPhone := by
  constructor
  · intro pw s n h
    obtain ⟨_, hlen, _, k1, k2, hk1, hk2, hn, _⟩ := tryPhone_dissect h
    exact ⟨by omega, hlen⟩
  · intro pw s n h i hi
    obtain ⟨_, hlen, hw, k1, k2, hk1, hk2, hn, hd1, hsep1, hd2, hsep2, hd3⟩ :=
      tryPhone_dissect h
    by_cases h1 : i < 3
    · exact ne_star_of_class isDigitCh (by decide) (hd1 i h1)
    · by_cases h2 : i < 3 + k1
      · have hk : k1 = 1 := by omega
        have hi3 : i = 3 := by omega
        subst hi3
        exact ne_star_of_class isSepCh (by decide) (hsep1 hk)
      · by_cases h3 : i < 6 + k1
        · exact ne_star_of_class isDigitCh (by decide) (hd2 i (by omega) h3)
        · by_cases h4 : i < 6 + k1 + k2
          · have hk : k2 = 1 := by omega
            have hi6 : i = 6 + k1 := by omega
            subst hi6
            exact ne_star_of_class isSepCh (by decide) (hsep2 hk)
          · exact ne_star_of_class isDigitCh (by decide) (hd3 i (by omega) hi)
  · intro pw c t n h
    obtain ⟨hpw, _, _, k1, k2, _, _, hn, hd1, _⟩ := tryPhone_dissect h
    obtain ⟨c0, hc0, hdig⟩ := hd1 0 (by omega)
    have hcc : c = c0 := by simpa using hc0
    rw [hpw, hcc, digit_word hdig]
    simp
  · intro pw s n h
    obtain ⟨_, _, _, k1, k2, hk1, hk2, hn, _, _, _, _, hd3⟩ := tryPhone_dissect h
    obtain ⟨c, hc, hdig⟩ := hd3 (n - 1) (by omega) (by omega)
    exact wordAt_eq_true_of hc (digit_word hdig)
  · intro pw s n h
    exact (tryPhone_dissect h).2.2.1
  · intro pw s t n h htake hnext
    obtain ⟨hpw, hlen, hw, k1, k2, hk1, hk2, hn, hd1, hsep1, hd2, hsep2, hd3⟩ :=
      tryPhone_dissect h
    subst hpw
    have hwt : wordAt t n = false := by
      rcases hnext with heq | ⟨hf, _⟩
      · unfold wordAt at hw ⊢
        rw [heq]
        exact hw
      · exact hf
    refine tryPhone_build hk1 hk2 hn (le_length_of_take_eq htake hlen) hwt ?_ ?_ ?_ ?_ ?_
    · intro i hi
      rw [get_eq_of_take_eq htake (by omega)]
      exact hd1 i hi
    · intro he
      rw [get_eq_of_take_eq htake (by omega)]
      exact hsep1 he
    · intro i hi1 hi2
      rw [get_eq_of_take_eq htake (by omega)]
      exact hd2 i hi1 hi2
    · intro he
      rw [get_eq_of_take_eq htake (by omega)]
      exact hsep2 he
    · intro i hi1 hi2
      rw [get_eq_of_take_eq htake (by omega)]
      exact hd3 i hi1 hi2

theorem trySSN_dissect {pw : Bool} {s : List Char} {n : Nat} (h : trySSN pw s = some n) :
    pw = false ∧ n = 11 ∧ n ≤ s.length ∧ wordAt s n = false ∧
    s.get? 3 = some '-' ∧ s.get? 6 = some '-' ∧
    (∀ i, i < 3 → ∃ c, s.get? i = some c ∧ isDigitCh c = true) ∧
    (∀ i, 4 ≤ i → i < 6 → ∃ c, s.get? i = some c ∧ isDigitCh c = true) ∧
    (∀ i, 7 ≤ i → i < 11 → ∃ c, s.get? i = some c ∧ isDigitCh c = true) := by
  unfold trySSN at h
  split at h
  · exact Option.noConfusion h
  · rename_i hpw
    split at h
    all_goals try exact Option.noConfusion h
    rename_i s1 h3
    obtain ⟨hs1, hlen3, hd1⟩ := takeDigits_some h3
    have hg3 : s.get? 3 = some '-' := by rw [← head?_drop, ← hs1]; rfl
    have hs1' : s1 = s.drop 4 := by
      have h2 := List.tail_drop s 3
      rw [← hs1] at h2
      exact h2
    rw [hs1'] at h
    split at h
    all_goals try exact Option.noConfusion h
    rename_i s2 h4
    obtain ⟨hs2, hlen6, hd2⟩ := takeDigits_drop_some (by omega) h4
    have hg6 : s.get? 6 = some '-' := by rw [← head?_drop, ← hs2]; rfl
    have hs2' : s2 = s.drop 7 := by
      have h2 := List.tail_drop s (4 + 2)
      rw [← hs2] at h2
      exact h2
    rw [hs2'] at h
    split at h
    all_goals try exact Option.noConfusion h
    rename_i s3 h11
    obtain ⟨hs3, hlen11, hd3⟩ := takeDigits_drop_some (by omega) h11
    subst hs3
    rw [wordHead_drop] at h
    by_cases hw : wordAt s (7 + 4)
    · simp [hw] at h
    · have hw' : wordAt s (7 + 4) = false := by simpa using hw
      simp only [hw', Bool.false_eq_true, if_false, Option.some.injEq,
        List.length_drop] at h
      have hn : n = 11 := by omega
      subst hn
      exact ⟨by simpa using hpw, rfl, by omega, hw', hg3, hg6, hd1,
        fun i hi1 hi2 => hd2 i (by omega) (by omega),
        fun i hi1 hi2 => hd3 i (by omega) (by omega)⟩

theorem trySSN_build {s : List Char} {n : Nat} (hn : n = 11) (hlen : n ≤ s.length)
    (hw : wordAt s n = false)
    (hg3 : s.get? 3 = some '-') (hg6 : s.get? 6 = some '-')
    (hd1 : ∀ i, i < 3 → ∃ c, s.get? i = some c ∧ isDigitCh c = true)
    (hd2 : ∀ i, 4 ≤ i → i < 6 → ∃ c, s.get? i = some c ∧ isDigitCh c = true)
    (hd3 : ∀ i, 7 ≤ i → i < 11 → ∃ c, s.get? i = some c ∧ isDigitCh c = true) :
    trySSN false s = some n := by
  subst hn
  have h3 : takeDigits 3 s = some (s.drop 3) := takeDigits_of 3 s (by omega) hd1
  have e3 : s.drop 3 = '-' :: s.drop 4 := drop_cons_of_get hg3
  have h4 : takeDigits 2 (s.drop 4) = some (s.drop (4 + 2)) :=
    takeDigits_drop_of (by omega) (fun i hi1 hi2 => hd2 i (by omega) (by omega))
  have e6 : s.drop (4 + 2) = '-' :: s.drop 7 := drop_cons_of_get hg6
  have h11 : takeDigits 4 (s.drop 7) = some (s.drop (7 + 4)) :=
    takeDigits_drop_of (by omega) (fun i hi1 hi2 => hd3 i (by omega) (by omega))
  have hw' : wordAt s (7 + 4) = false := hw
  unfold trySSN
  rw [if_neg (by simp)]
  simp only [h3, e3, h4, e6, h11, wordHead_drop, hw', Bool.false_eq_true, if_false,
    Option.some.injEq, List.length_drop]
  omega

theorem facts_ssn : MatcherFacts trySSN := by
  constructor
  · intro pw s n h
    obtain ⟨_, hn, hlen, _⟩ := trySSN_dissect h
    exact ⟨by omega, hlen⟩
  · intro pw s n h i hi
    obtain ⟨_, hn, hlen, hw, hg3, hg6, hd1, hd2, hd3⟩ := trySSN_dissect h
    by_cases h1 : i < 3
    · exact ne_star_of_class isDigitCh (by decide) (hd1 i h1)
    · by_cases h2 : i = 3
      · subst h2
        exact ne_star_of_class (fun c => c == '-') (by decide) ⟨'-', hg3, by decide⟩
      · by_cases h3 : i < 6
        · exact ne_star_of_class isDigitCh (by decide) (hd2 i (by omega) h3)
        · by_cases h4 : i = 6
          · subst h4
            exact ne_star_of_class (fun c => c == '-') (by decide) ⟨'-', hg6, by decide⟩
          · exact ne_star_of_class isDigitCh (by decide) (hd3 i (by omega) (by omega))
  · intro pw c t n h
    obtain ⟨hpw, hn, _, _, _, _, hd1, _⟩ := trySSN_dissect h
    obtain ⟨c0, hc0, hdig⟩ := hd1 0 (by omega)
    have hcc : c = c0 := by simpa using hc0
    rw [hpw, hcc, digit_word hdig]
    simp
  · intro pw s n h
    obtain ⟨_, hn, _, _, _, _, _, _, hd3⟩ := trySSN_dissect h
    obtain ⟨c, hc, hdig⟩ := hd3 (n - 1) (by omega) (by omega)
    exact wordAt_eq_true_of hc (digit_word hdig)
  · intro pw s n h
    exact (trySSN_dissect h).2.2.2.1
  · intro pw s t n h htake hnext
    obtain ⟨hpw, hn, hlen, hw, hg3, hg6, hd1, hd2, hd3⟩ := trySSN_dissect h
    subst hpw
    have hwt : wordAt t n = false := by
      rcases hnext with heq | ⟨hf, _⟩
      · unfold wordAt at hw ⊢
        rw [heq]
        exact hw
      · exact hf
    refine trySSN_build hn (le_length_of_take_eq htake hlen) hwt ?_ ?_ ?_ ?_ ?_
    · rw [get_eq_of_take_eq htake (by omega)]; exact hg3
    · rw [get_eq_of_take_eq htake (by omega)]; exact hg6
    · intro i hi
      rw [get_eq_of_take_eq htake (by omega)]
      exact hd1 i hi
    · intro i hi1 hi2
      rw [get_eq_of_take_eq htake (by omega)]
      exact hd2 i hi1 hi2
    · intro i hi1 hi2
      rw [get_eq_of_take_eq htake (by omega)]
      exact hd3 i hi1 hi2

theorem dobMonth_some {u r : List Char} (h : dobMonth u = some r) :
    ∃ a b, u = a :: b :: r ∧ isDigitCh a = true ∧ isDigitCh b = true ∧
      ∀ v, dobMonth (a :: b :: v) = some v := by
  rcases u with _ | ⟨a, _ | ⟨b, t⟩⟩
  · simp [dobMonth] at h
  · simp [dobMonth] at h
  · refine ⟨a, b, ?_⟩
    unfold dobMonth at h
    by_cases h0 : (a == '0') = true
    · simp only [h0, if_true] at h
      by_cases h1 : (isDigitCh b && b != '0') = true
      · simp only [h1, if_true, Option.some.injEq] at h
        subst h
        have hb : isDigitCh b = true := by
          have h2 : isDigitCh b = true ∧ ¬b = '0' := by simpa using h1
          exact h2.1
        exact ⟨rfl, by rw [eq_of_beq h0]; decide, hb,
          fun v => by simp [dobMonth, h0, h1]⟩
      · simp [h1] at h
    · simp only [h0] at h
      by_cases h1 : (a == '1') = true
      · simp only [h1, if_true, if_false, Bool.false_eq_true] at h
        by_cases h2 : (b == '0' || b == '1' || b == '2') = true
        · simp only [h2, if_true, Option.some.injEq] at h
          subst h
          have hb : isDigitCh b = true := by
            have h3 : (b = '0' ∨ b = '1') ∨ b = '2' := by simpa using h2
            rcases h3 with (h4 | h4) | h4 <;> · rw [h4]; decide
          exact ⟨rfl, by rw [eq_of_beq h1]; decide, hb,
            fun v => by simp [dobMonth, h0, h1, h2]⟩
        · simp [h2] at h
      · simp [h0, h1] at h

theorem dobDay_some {u r : List Char} (h : dobDay u = some r) :
    ∃ a b, u = a :: b :: r ∧ isDigitCh a = true ∧ isDigitCh b = true ∧
      ∀ v, dobDay (a :: b :: v) = some v := by
  rcases u with _ | ⟨a, _ | ⟨b, t⟩⟩
  · simp [dobDay] at h
  · simp [dobDay] at h
  · refine ⟨a, b, ?_⟩
    unfold dobDay at h
    by_cases h0 : (a == '0') = true
    · simp only [h0, if_true] at h
      by_cases h1 : (isDigitCh b && b != '0') = true
      · simp only [h1, if_true, Option.some.injEq] at h
        subst h
        have hb : isDigitCh b = true := by
          have h2 : isDigitCh b = true ∧ ¬b = '0' := by simpa using h1
          exact h2.1
        exact ⟨rfl, by rw [eq_of_beq h0]; decide, hb,
          fun v => by simp [dobDay, h0, h1]⟩
      · simp [h1] at h
    · simp only [h0] at h
      by_cases h1 : (a == '1' || a == '2') = true
      · simp only [h1, if_true, if_false, Bool.false_eq_true] at h
        by_cases h2 : isDigitCh b = true
        · simp only [h2, if_true, Option.some.injEq] at h
          subst h
          have ha : isDigitCh a = true := by
            have h3 : a = '1' ∨ a = '2' := by simpa using h1
            rcases h3 with h4 | h4 <;> · rw [h4]; decide
          exact ⟨rfl, ha, h2, fun v => by simp [dobDay, h0, h1, h2]⟩
        · simp [h2] at h
      · simp only [h1, if_false, Bool.false_eq_true] at h
        by_cases h2 : (a == '3') = true
        · simp only [h2, if_true] at h
          by_cases h3 : (b == '0' || b == '1') = true
          · simp only [h3, if_true, Option.some.injEq] at h
            subst h
            have hb : isDigitCh b = true := by
              have h4 : b = '0' ∨ b = '1' := by simpa using h3
              rcases h4 with h5 | h5 <;> · rw [h5]; decide
            exact ⟨rfl, by rw [eq_of_beq h2]; decide, hb,
              fun v => by simp [dobDay, h0, h1, h2, h3]⟩
          · simp [h3] at h
        · simp [h0, h1, h2] at h

theorem dobSep_some {u r : List Char} (h : dobSep u = some r) :
    ∃ a, u = a :: r ∧ isWordCh a = false ∧ isDigitCh a = false ∧ a ≠ '*' ∧
      ∀ v, dobSep (a :: v) = some v := by
  rcases u with _ | ⟨a, t⟩
  · simp [dobSep] at h
  · unfold dobSep at h
    by_cases h0 : (a == '/' || a == '-') = true
    · simp only [h0, if_true, Option.some.injEq] at h
      subst h
      have hfacts : isWordCh a = false ∧ isDigitCh a = false ∧ a ≠ '*' := by
        have h1 : a = '/' ∨ a = '-' := by simpa using h0
        rcases h1 with h2 | h2 <;> · rw [h2]; refine ⟨by decide, by decide, by decide⟩
      exact ⟨a, rfl, hfacts.1, hfacts.2.1, hfacts.2.2,
        fun v => by simp [dobSep, h0]⟩
    · simp [h0] at h

theorem tryDOB_dissect {pw : Bool} {s : List Char} {n : Nat} (h : tryDOB pw s = some n) :
    pw = false ∧ n = 10 ∧ n ≤ s.length ∧ wordAt s n = false ∧
    ∃ a b c2 d e f2,
      s.get? 0 = some a ∧ s.get? 1 = some b ∧ s.get? 2 = some c2 ∧
      s.get? 3 = some d ∧ s.get? 4 = some e ∧ s.get? 5 = some f2 ∧
      isDigitCh a = true ∧ isDigitCh b = true ∧
      isWordCh c2 = false ∧ isDigitCh c2 = false ∧ c2 ≠ '*' ∧
      isDigitCh d = true ∧ isDigitCh e = true ∧
      isWordCh f2 = false ∧ isDigitCh f2 = false ∧ f2 ≠ '*' ∧
      (∀ v, dobMonth (a :: b :: v) = some v) ∧ (∀ v, dobSep (c2 :: v) = some v) ∧
      (∀ v, dobDay (d :: e :: v) = some v) ∧ (∀ v, dobSep (f2 :: v) = some v) ∧
      (∀ i, 6 ≤ i → i < 10 → ∃ c, s.get? i = some c ∧ isDigitCh c = true) := by
  unfold tryDOB at h
  split at h
  · exact Option.noConfusion h
  · rename_i hpw
    split at h
    · exact Option.noConfusion h
    · rename_i s1 h1
      obtain ⟨a, b, hu, ha, hb, hcong1⟩ := dobMonth_some h1
      have hga : s.get? 0 = some a := by rw [hu]; rfl
      have hgb : s.get? 1 = some b := by rw [hu]; rfl
      have hs1 : s1 = s.drop 2 := by rw [hu]; rfl
      rw [hs1] at h
      split at h
      · exact Option.noConfusion h
      · rename_i s2 h2
        obtain ⟨c2, hu2, hw2, hdc2, hst2, hcong2⟩ := dobSep_some h2
        have hgc : s.get? 2 = some c2 := by rw [← head?_drop, hu2]; rfl
        have hs2 : s2 = s.drop 3 := by
          have ht := List.tail_drop s 2
          rw [hu2] at ht
          exact ht
        rw [hs2] at h
        split at h
        · exact Option.noConfusion h
        · rename_i s3 h3
          obtain ⟨d, e, hu3, hd, he, hcong3⟩ := dobDay_some h3
          have hgd : s.get? 3 = some d := by rw [← head?_drop, hu3]; rfl
          have hdr4 : s.drop 4 = e :: s3 := by
            have ht := List.tail_drop s 3
            rw [hu3] at ht
            exact ht.symm
          have hge : s.get? 4 = some e := by rw [← head?_drop, hdr4]; rfl
          have hs3 : s3 = s.drop 5 := by
            have ht := List.tail_drop s 4
            rw [hdr4] at ht
            exact ht
          rw [hs3] at h
          split at h
          · exact Option.noConfusion h
          · rename_i s4 h4
            obtain ⟨f2, hu4, hw4, hdf2, hst4, hcong4⟩ := dobSep_some h4
            have hgf : s.get? 5 = some f2 := by rw [← head?_drop, hu4]; rfl
            have hs4 : s4 = s.drop 6 := by
              have ht := List.tail_drop s 5
              rw [hu4] at ht
              exact ht
            rw [hs4] at h
            split at h
            · exact Option.noConfusion h
            · rename_i s5 h5
              obtain ⟨hs5, hlen10, hd3⟩ := takeDigits_drop_some (by omega) h5
              subst hs5
              rw [wordHead_drop] at h
              by_cases hw : wordAt s (6 + 4)
              · simp [hw] at h
              · have hw' : wordAt s (6 + 4) = false := by simpa using hw
                simp only [hw', Bool.false_eq_true, if_false, Option.some.injEq,
                  List.length_drop] at h
                have hn : n = 10 := by omega
                subst hn
                exact ⟨by simpa using hpw, rfl, by omega, hw',
                  a, b, c2, d, e, f2, hga, hgb, hgc, hgd, hge, hgf,
                  ha, hb, hw2, hdc2, hst2, hd, he, hw4, hdf2, hst4,
                  hcong1, hcong2, hcong3, hcong4,
                  fun i hi1 hi2 => hd3 i (by omega) (by omega)⟩

theorem tryDOB_build {s : List Char} {n : Nat} {a b c2 d e f2 : Char}
    (hn : n = 10) (hlen : n ≤ s.length) (hw : wordAt s n = false)
    (hga : s.get? 0 = some a) (hgb : s.get? 1 = some b) (hgc : s.get? 2 = some c2)
    (hgd : s.get? 3 = some d) (hge : s.get? 4 = some e) (hgf : s.get? 5 = some f2)
    (hcong1 : ∀ v, dobMonth (a :: b :: v) = some v)
    (hcong2 : ∀ v, dobSep (c2 :: v) = some v)
    (hcong3 : ∀ v, dobDay (d :: e :: v) = some v)
    (hcong4 : ∀ v, dobSep (f2 :: v) = some v)
    (hd3 : ∀ i, 6 ≤ i → i < 10 → ∃ c, s.get? i = some c ∧ isDigitCh c = true) :
    tryDOB false s = some n := by
  subst hn
  have e0 : s = a :: s.drop 1 := drop_cons_of_get hga
  have e1 : s.drop 1 = b :: s.drop 2 := drop_cons_of_get hgb
  have e2 : s.drop 2 = c2 :: s.drop 3 := drop_cons_of_get hgc
  have e3 : s.drop 3 = d :: s.drop 4 := drop_cons_of_get hgd
  have e4 : s.drop 4 = e :: s.drop 5 := drop_cons_of_get hge
  have e5 : s.drop 5 = f2 :: s.drop 6 := drop_cons_of_get hgf
  have hm : dobMonth s = some (s.drop 2) := by
    nth_rewrite 1 [e0]
    nth_rewrite 1 [e1]
    exact hcong1 _
  have hsp1 : dobSep (s.drop 2) = some (s.drop 3) := by
    nth_rewrite 1 [e2]
    exact hcong2 _
  have hday : dobDay (s.drop 3) = some (s.drop 5) := by
    nth_rewrite 1 [e3]
    nth_rewrite 1 [e4]
    exact hcong3 _
  have hsp2 : dobSep (s.drop 5) = some (s.drop 6) := by
    nth_rewrite 1 [e5]
    exact hcong4 _
  have h4d : takeDigits 4 (s.drop 6) = some (s.drop (6 + 4)) :=
    takeDigits_drop_of (by omega) (fun i hi1 hi2 => hd3 i (by omega) (by omega))
  have hw' : wordAt s (6 + 4) = false := hw
  unfold tryDOB
  rw [if_neg (by simp)]
  simp only [hm, hsp1, hday, hsp2, h4d, wordHead_drop, hw', Bool.false_eq_true,
    if_false, Option.some.injEq, List.length_drop]
  omega

theorem facts_dob : MatcherFacts tryDOB := by
  constructor
  · intro pw s n h
    obtain ⟨_, hn, hlen, _⟩ := tryDOB_dissect h
    exact ⟨by omega, hlen⟩
  · intro pw s n h i hi
    obtain ⟨_, hn, hlen, hw, hex⟩ := tryDOB_dissect h
    obtain ⟨a, b, c2, d, e, f2, hga, hgb, hgc, hgd, hge, hgf,
      ha, hb, hwc2, hdc2, hst2, hd, he, hwf2, hdf2, hst4,
      hcong1, hcong2, hcong3, hcong4, hd3⟩ := hex
    subst hn
    interval_cases i <;>
      first
        | exact ne_star_of_class isDigitCh (by decide) ⟨a, hga, ha⟩
        | exact ne_star_of_class isDigitCh (by decide) ⟨b, hgb, hb⟩
        | (rw [hgc]; intro hcc; apply hst2; injection hcc)
        | exact ne_star_of_class isDigitCh (by decide) ⟨d, hgd, hd⟩
        | exact ne_star_of_class isDigitCh (by decide) ⟨e, hge, he⟩
        | (rw [hgf]; intro hcc; apply hst4; injection hcc)
        | exact ne_star_of_class isDigitCh (by decide) (hd3 _ (by omega) (by omega))
  · intro pw c t n h
    obtain ⟨hpw, _, _, _, hex⟩ := tryDOB_dissect h
    obtain ⟨a, b, c2, d, e, f2, hga, _, _, _, _, _, ha, _⟩ := hex
    have hca : c = a := by simpa using hga
    rw [hpw, hca, digit_word ha]
    simp
  · intro pw s n h
    obtain ⟨_, hn, _, _, hex⟩ := tryDOB_dissect h
    obtain ⟨a, b, c2, d, e, f2, hga, hgb, hgc, hgd, hge, hgf,
      ha, hb, hwc2, hdc2, hst2, hd, he, hwf2, hdf2, hst4,
      hcong1, hcong2, hcong3, hcong4, hd3⟩ := hex
    obtain ⟨c, hc, hdig⟩ := hd3 (n - 1) (by omega) (by omega)
    exact wordAt_eq_true_of hc (digit_word hdig)
  · intro pw s n h
    exact (tryDOB_dissect h).2.2.2.1
  · intro pw s t n h htake hnext
    obtain ⟨hpw, hn, hlen, hw, hex⟩ := tryDOB_dissect h
    obtain ⟨a, b, c2, d, e, f2, hga, hgb, hgc, hgd, hge, hgf,
      ha, hb, hwc2, hdc2, hst2, hd, he, hwf2, hdf2, hst4,
      hcong1, hcong2, hcong3, hcong4, hd3⟩ := hex
    subst hpw
    have hwt : wordAt t n = false := by
      rcases hnext with heq | ⟨hf, _⟩
      · unfold wordAt at hw ⊢
        rw [heq]
        exact hw
      · exact hf
    refine tryDOB_build hn (le_length_of_take_eq htake hlen) hwt ?_ ?_ ?_ ?_ ?_ ?_
      hcong1 hcong2 hcong3 hcong4 ?_
    · rw [get_eq_of_take_eq htake (by omega)]; exact hga
    · rw [get_eq_of_take_eq htake (by omega)]; exact hgb
    · rw [get_eq_of_take_eq htake (by omega)]; exact hgc
    · rw [get_eq_of_take_eq htake (by omega)]; exact hgd
    · rw [get_eq_of_take_eq htake (by omega)]; exact hge
    · rw [get_eq_of_take_eq htake (by omega)]; exact hgf
    · intro i hi1 hi2
      rw [get_eq_of_take_eq htake (by omega)]
      exact hd3 i hi1 hi2

theorem takeWhile_len_le (p : Char → Bool) : ∀ (l : List Char),
    (l.takeWhile p).length ≤ l.length := by
  intro l
  induction l with
  | nil => simp
  | cons c t ih =>
    by_cases hc : p c
    · simp only [List.takeWhile_cons, hc, if_true, List.length_cons]
      omega
    · have hc' : p c = false := by simpa using hc
      simp [List.takeWhile_cons, hc']

theorem lt_length_of_get {s : List Char} {i : Nat} {c : Char}
    (h : s.get? i = some c) : i < s.length := by
  by_contra hc
  rw [List.get?_eq_none.mpr (by omega)] at h
  cases h

theorem tryEmail_dissect {pw : Bool} {s : List Char} {n : Nat}
    (h : tryEmail pw s = some n) :
    n ≤ s.length ∧ wordAt s n = false ∧
    ∃ c0, s.get? 0 = some c0 ∧ localCh c0 = true ∧ pw = !isWordCh c0 ∧
    ∃ La Lb Lc, 1 ≤ La ∧ 1 ≤ Lb ∧ 2 ≤ Lc ∧ n = La + 1 + Lb + 1 + Lc ∧
      (∀ i, i < La → ∃ c, s.get? i = some c ∧ localCh c = true) ∧
      s.get? La = some '@' ∧
      (∀ i, La + 1 ≤ i → i < La + 1 + Lb → ∃ c, s.get? i = some c ∧ domCh c = true) ∧
      s.get? (La + 1 + Lb) = some '.' ∧
      (∀ i, La + 1 + Lb + 1 ≤ i → i < n → ∃ c, s.get? i = some c ∧ isLetterCh c = true) := by
  rcases s with _ | ⟨c, t⟩
  · simp [tryEmail] at h
  · simp only [tryEmail] at h
    split at h
    · exact Option.noConfusion h
    · rename_i hloc0
      split at h
      · exact Option.noConfusion h
      · rename_i hpw0
        have hloc : localCh c = true := by simpa using hloc0
        have hpwe : pw = !isWordCh c := by
          have hne : ¬(pw == isWordCh c) = true := hpw0
          cases pw <;> cases hb : isWordCh c <;> simp_all
        split at h
        all_goals try exact Option.noConfusion h
        rename_i s2 hdw
        obtain ⟨hwall, hwstop, hwdrop⟩ := takeWhile_spec localCh (c :: t)
        rw [hwdrop] at hdw
        have hLa1 : 1 ≤ ((c :: t).takeWhile localCh).length := by
          by_contra hc0
          have h0 : ((c :: t).takeWhile localCh).length = 0 := by omega
          have := hwstop c (by rw [h0]; rfl)
          rw [hloc] at this
          cases this
        have hat : (c :: t).get? ((c :: t).takeWhile localCh).length = some '@' := by
          rw [← head?_drop, hdw]
          rfl
        have hs2 : s2 = (c :: t).drop (((c :: t).takeWhile localCh).length + 1) := by
          have ht := List.tail_drop (c :: t) ((c :: t).takeWhile localCh).length
          rw [hdw] at ht
          exact ht
        split at h
        · rename_i d s2'
          split at h
          · exact Option.noConfusion h
          · rename_i hdom0
            have hdomd : domCh d = true := by simpa using hdom0
            split at h
            all_goals try exact Option.noConfusion h
            rename_i s4 hdw2
            obtain ⟨hdall, hdstop, hddrop⟩ := takeWhile_spec domCh (d :: s2')
            rw [hddrop] at hdw2
            have hLb1 : 1 ≤ ((d :: s2').takeWhile domCh).length := by
              by_contra hc0
              have h0 : ((d :: s2').takeWhile domCh).length = 0 := by omega
              have := hdstop d (by rw [h0]; rfl)
              rw [hdomd] at this
              cases this
            split at h
            · rename_i hcond
              -- h : some ((c :: t).length - (s4.dropWhile isLetterCh).length) = some n
              obtain ⟨hlall, hlstop, hldrop⟩ := takeWhile_spec isLetterCh s4
              have hcond2 : 2 ≤ (s4.takeWhile isLetterCh).length ∧
                  wordHead (s4.dropWhile isLetterCh) = false := by
                have := hcond
                simp only [Bool.and_eq_true, decide_eq_true_eq, Bool.not_eq_true'] at this
                exact this
              -- abbreviations
              set La := ((c :: t).takeWhile localCh).length with hLadef
              set Lb := ((d :: s2').takeWhile domCh).length with hLbdef
              set Lc := (s4.takeWhile isLetterCh).length with hLcdef
              -- chain of drops
              have hs2d : d :: s2' = (c :: t).drop (La + 1) := hs2
              have hLaLen : La + 1 ≤ (c :: t).length := lt_length_of_get hat
              have hget2 : ∀ i, (d :: s2').get? i = (c :: t).get? (La + 1 + i) := by
                intro i
                rw [hs2d, lget_drop]
              have hdot : (c :: t).get? (La + 1 + Lb) = some '.' := by
                rw [← hget2 Lb, ← head?_drop, hdw2]
                rfl
              have hs4 : s4 = (c :: t).drop (La + 1 + Lb + 1) := by
                have hdw2' : (c :: t).drop (La + 1 + Lb) = '.' :: s4 := by
                  rw [← drop_drop_nat, ← hs2d, hdw2]
                have ht := List.tail_drop (c :: t) (La + 1 + Lb)
                rw [hdw2'] at ht
                exact ht
              have hget4 : ∀ i, s4.get? i = (c :: t).get? (La + 1 + Lb + 1 + i) := by
                intro i
                rw [hs4, lget_drop]
              have hdotLen : La + 1 + Lb + 1 ≤ (c :: t).length := lt_length_of_get hdot
              have hLcLen : Lc ≤ s4.length := by
                rw [hLcdef]
                exact takeWhile_len_le isLetterCh s4
              have hs4len : s4.length = (c :: t).length - (La + 1 + Lb + 1) := by
                rw [hs4, List.length_drop]
              have hn : n = La + 1 + Lb + 1 + Lc := by
                have hdl : (s4.dropWhile isLetterCh).length = s4.length - Lc := by
                  rw [hldrop, List.length_drop]
                rw [hdl] at h
                have := Option.some.inj h
                omega
              have hword : wordAt (c :: t) n = false := by
                have hwh := hcond2.2
                rw [hldrop, hs4, drop_drop_nat, wordHead_drop] at hwh
                rw [hn]
                exact hwh
              refine ⟨by omega, hword, c, rfl, hloc, hpwe, La, Lb, Lc, hLa1, hLb1,
                hcond2.1, hn, hwall, hat, ?_, hdot, ?_⟩
              · intro i hi1 hi2
                obtain ⟨cc, hcc, hdcc⟩ := hdall (i - (La + 1)) (by omega)
                rw [hget2] at hcc
                exact ⟨cc, by rw [← hcc]; congr 1; omega, hdcc⟩
              · intro i hi1 hi2
                obtain ⟨cc, hcc, hlcc⟩ := hlall (i - (La + 1 + Lb + 1)) (by omega)
                rw [hget4] at hcc
                exact ⟨cc, by rw [← hcc]; congr 1; omega, hlcc⟩
            · exact Option.noConfusion h
        · exact Option.noConfusion h

theorem tryEmail_build {s : List Char} {n : Nat} {c0 : Char} {La Lb Lc : Nat}
    (hg0 : s.get? 0 = some c0) (hc0 : localCh c0 = true)
    (hLa : 1 ≤ La) (hLb : 1 ≤ Lb) (hLc : 2 ≤ Lc) (hn : n = La + 1 + Lb + 1 + Lc)
    (hlen : n ≤ s.length) (hw : wordAt s n = false)
    (hloc : ∀ i, i < La → ∃ c, s.get? i = some c ∧ localCh c = true)
    (hat : s.get? La = some '@')
    (hdom : ∀ i, La + 1 ≤ i → i < La + 1 + Lb → ∃ c, s.get? i = some c ∧ domCh c = true)
    (hdot : s.get? (La + 1 + Lb) = some '.')
    (hlet : ∀ i, La + 1 + Lb + 1 ≤ i → i < n → ∃ c, s.get? i = some c ∧ isLetterCh c = true) :
    tryEmail (!isWordCh c0) s = some n := by
  rcases s with _ | ⟨c, t⟩
  · simp at hg0
  · have hcc : c = c0 := by simpa using hg0
    subst hcc
    have hstop1 : ∀ ch, (c :: t).get? La = some ch → localCh ch = false := by
      intro ch hch
      rw [hat] at hch
      have h2 : ch = '@' := by injection hch with h3; exact h3.symm
      rw [h2]
      decide
    have htb1 := takeWhile_build hloc hstop1
    have hdw1 : (c :: t).dropWhile localCh = '@' :: (c :: t).drop (La + 1) := by
      rw [htb1.2, drop_cons_of_get hat]
    obtain ⟨d, hgd, hdomd⟩ := hdom (La + 1) (by omega) (by omega)
    have hu : (c :: t).drop (La + 1) = d :: (c :: t).drop (La + 1 + 1) :=
      drop_cons_of_get hgd
    have hdom2 : ∀ i, i < Lb →
        ∃ ch, ((c :: t).drop (La + 1)).get? i = some ch ∧ domCh ch = true := by
      intro i hi
      rw [lget_drop]
      exact hdom (La + 1 + i) (by omega) (by omega)
    have hstop2 : ∀ ch, ((c :: t).drop (La + 1)).get? Lb = some ch → domCh ch = false := by
      intro ch hch
      rw [lget_drop, hdot] at hch
      have h2 : ch = '.' := by injection hch with h3; exact h3.symm
      rw [h2]
      decide
    have htb2 := takeWhile_build hdom2 hstop2
    have hdw2 : ((c :: t).drop (La + 1)).dropWhile domCh
        = '.' :: (c :: t).drop (La + 1 + Lb + 1) := by
      rw [htb2.2, drop_drop_nat, drop_cons_of_get hdot]
    have hlet2 : ∀ i, i < Lc →
        ∃ ch, ((c :: t).drop (La + 1 + Lb + 1)).get? i = some ch ∧ isLetterCh ch = true := by
      intro i hi
      rw [lget_drop]
      exact hlet (La + 1 + Lb + 1 + i) (by omega) (by omega)
    have hstop3 : ∀ ch, ((c :: t).drop (La + 1 + Lb + 1)).get? Lc = some ch →
        isLetterCh ch = false := by
      intro ch hch
      rw [lget_drop] at hch
      have hpos : La + 1 + Lb + 1 + Lc = n := hn.symm
      rw [hpos] at hch
      have hw2 : isWordCh ch = false := by
        unfold wordAt at hw
        rw [hch] at hw
        exact hw
      by_contra hl
      have hl' : isLetterCh ch = true := by simpa using hl
      rw [letter_word hl'] at hw2
      cases hw2
    have htb3 := takeWhile_build hlet2 hstop3
    have hlen4 : Lc ≤ ((c :: t).drop (La + 1 + Lb + 1)).length := by
      rw [List.length_drop]
      omega
    have htl : (((c :: t).drop (La + 1 + Lb + 1)).takeWhile isLetterCh).length = Lc := by
      rw [htb3.1, List.length_take]
      omega
    have hfd : ((c :: t).drop (La + 1 + Lb + 1)).dropWhile isLetterCh = (c :: t).drop n := by
      rw [htb3.2, drop_drop_nat]
      congr 1
      omega
    have hne : ((!isWordCh c) == isWordCh c) = false := by cases isWordCh c <;> rfl
    rw [hu] at hdw2
    simp only [tryEmail]
    rw [if_neg (by simp [hc0]), if_neg (by simp [hne])]
    simp only [hdw1, hu, hdw2, htl, hfd]
    rw [if_neg (by simp [hdomd])]
    rw [wordHead_drop]
    have hdec : (decide (2 ≤ Lc) && !wordAt (c :: t) n) = true := by
      rw [hw]
      simp [hLc]
    rw [if_pos hdec]
    simp only [Option.some.injEq, List.length_drop]
    omega

theorem facts_email : MatcherFacts tryEmail := by
  constructor
  · intro pw s n h
    obtain ⟨hlen, _, c0, _, _, _, La, Lb, Lc, hLa, hLb, hLc, hn, _⟩ := tryEmail_dissect h
    exact ⟨by omega, hlen⟩
  · intro pw s n h i hi
    obtain ⟨hlen, hw, c0, hg0, hc0, hpwe, La, Lb, Lc, hLa, hLb, hLc, hn,
      hloc, hat, hdom, hdot, hlet⟩ := tryEmail_dissect h
    by_cases h1 : i < La
    · exact ne_star_of_class localCh (by decide) (hloc i h1)
    · by_cases h2 : i = La
      · subst h2
        exact ne_star_of_class (fun c => c == '@') (by decide) ⟨'@', hat, by decide⟩
      · by_cases h3 : i < La + 1 + Lb
        · exact ne_star_of_class domCh (by decide) (hdom i (by omega) h3)
        · by_cases h4 : i = La + 1 + Lb
          · subst h4
            exact ne_star_of_class (fun c => c == '.') (by decide) ⟨'.', hdot, by decide⟩
          · exact ne_star_of_class isLetterCh (by decide) (hlet i (by omega) hi)
  · intro pw c t n h
    obtain ⟨_, _, c0, hg0, _, hpwe, _⟩ := tryEmail_dissect h
    have hcc : c = c0 := by simpa using hg0
    subst hcc
    rw [hpwe]
    cases isWordCh c <;> simp
  · intro pw s n h
    obtain ⟨hlen, hw, c0, hg0, hc0, hpwe, La, Lb, Lc, hLa, hLb, hLc, hn,
      hloc, hat, hdom, hdot, hlet⟩ := tryEmail_dissect h
    obtain ⟨c, hc, hlc⟩ := hlet (n - 1) (by omega) (by omega)
    exact wordAt_eq_true_of hc (letter_word hlc)
  · intro pw s n h
    exact (tryEmail_dissect h).2.1
  · intro pw s t n h htake hnext
    obtain ⟨hlen, hw, c0, hg0, hc0, hpwe, La, Lb, Lc, hLa, hLb, hLc, hn,
      hloc, hat, hdom, hdot, hlet⟩ := tryEmail_dissect h
    have hwt : wordAt t n = false := by
      rcases hnext with heq | ⟨hf, _⟩
      · unfold wordAt at hw ⊢
        rw [heq]
        exact hw
      · exact hf
    rw [hpwe]
    refine tryEmail_build ?_ hc0 hLa hLb hLc hn (le_length_of_take_eq htake hlen) hwt
      ?_ ?_ ?_ ?_ ?_
    · rw [get_eq_of_take_eq htake (by omega)]; exact hg0
    · intro i hi
      rw [get_eq_of_take_eq htake (by omega)]
      exact hloc i hi
    · rw [get_eq_of_take_eq htake (by omega)]; exact hat
    · intro i hi1 hi2
      rw [get_eq_of_take_eq htake (by omega)]
      exact hdom i hi1 hi2
    · rw [get_eq_of_take_eq htake (by omega)]; exact hdot
    · intro i hi1 hi2
      rw [get_eq_of_take_eq htake (by omega)]
      exact hlet i hi1 hi2

/-! ## The masking pass as a relation, and cleanliness transfer -/

theorem pwAt_cons (pw : Bool) (c : Char) (t : List Char) (i : Nat) :
    pwAt pw (c :: t) (i + 1) = pwAt (isWordCh c) t i := by
  unfold pwAt
  by_cases hk : i = 0
  · subst hk
    rfl
  · rw [if_neg (by omega), if_neg hk]
    unfold wordAt
    rw [show i + 1 - 1 = (i - 1) + 1 by omega]
    rw [show ((c :: t).get? ((i - 1) + 1)) = t.get? (i - 1) from rfl]

theorem pwAt_drop {n : Nat} (hn : 1 ≤ n) (pw : Bool) (s : List Char) (i : Nat) :
    pwAt pw s (n + i) = pwAt (wordAt s (n - 1)) (s.drop n) i := by
  unfold pwAt
  by_cases hi : i = 0
  · subst hi
    rw [if_neg (by omega), if_pos rfl]
    rw [Nat.add_zero]
  · rw [if_neg (by omega), if_neg hi]
    unfold wordAt
    rw [lget_drop]
    rw [show n + i - 1 = n + (i - 1) by omega]

theorem drop_append_le {l l' : List Char} {i : Nat} (h : i ≤ l.length) :
    (l ++ l').drop i = l.drop i ++ l' := by
  induction l generalizing i with
  | nil =>
    simp at h
    subst h
    rfl
  | cons c t ih =>
    cases i with
    | zero => rfl
    | succ j => simpa using ih (by simpa using h)

theorem drop_append_right (l l' : List Char) (j : Nat) :
    (l ++ l').drop (l.length + j) = l'.drop j := by
  induction l with
  | nil => simp
  | cons c t ih => simpa [Nat.succ_add] using ih

theorem get_append_right (l l' : List Char) (i : Nat) :
    (l ++ l').get? (l.length + i) = l'.get? i := by
  induction l with
  | nil => simp
  | cons c t ih => simpa [Nat.succ_add] using ih

theorem get_append_left {l : List Char} (l' : List Char) {i : Nat} (h : i < l.length) :
    (l ++ l').get? i = l.get? i := by
  induction l generalizing i with
  | nil => simp at h
  | cons c t ih =>
    cases i with
    | zero => rfl
    | succ j => simpa using ih (by simpa using h)

theorem getLast_star {rq : List Char} (h2 : rq.getLast? = some '*') {i : Nat}
    (hi : i + 1 = rq.length) : rq.get? i = some '*' := by
  induction rq generalizing i with
  | nil => cases h2
  | cons c t ih =>
    cases t with
    | nil =>
      have hi0 : i = 0 := by simp at hi; omega
      subst hi0
      simpa using h2
    | cons d r =>
      cases i with
      | zero => simp at hi
      | succ j =>
        have h2' : (d :: r).getLast? = some '*' := by
          rw [← h2]
          rfl
        simpa using ih h2' (by simpa using hi)

theorem matcher_nil {P : Bool → List Char → Option Nat} (fP : MatcherFacts P)
    (pw : Bool) : P pw [] = none := by
  cases hP : P pw [] with
  | none => rfl
  | some n =>
    have hb := fP.bounds _ _ _ hP
    simp at hb
    omega

theorem mrel_head {Q : Bool → List Char → Option Nat} {rq : List Char}
    {pw : Bool} {v out : List Char} (h : MRel Q rq pw v out)
    (hr : rq.head? = some '*') :
    out = [] ∨ ∃ c0 r, out = c0 :: r ∧ (c0 = '*' ∨ v.get? 0 = some c0) := by
  cases h with
  | nil => exact Or.inl rfl
  | frag pw c t o hQ hM => exact Or.inr ⟨c, o, rfl, Or.inr rfl⟩
  | hit pw s o n hQ h1 h2 hM =>
    cases rq with
    | nil => cases hr
    | cons r0 rt =>
      have hr0 : r0 = '*' := by simpa using hr
      exact Or.inr ⟨r0, rt ++ o, rfl, Or.inl hr0⟩

theorem mrel_agree {Q : Bool → List Char → Option Nat} {rq : List Char}
    {pw : Bool} {u u' : List Char} (h : MRel Q rq pw u u')
    (hr : rq.head? = some '*') :
    u' = u ∨ ∃ k m, u'.take k = u.take k ∧ u'.get? k = some '*' ∧
      Q (pwAt pw u k) (u.drop k) = some m := by
  induction h with
  | nil pw => exact Or.inl rfl
  | frag pw c t out hQ hM ih =>
    rcases ih with heq | ⟨k, m, h1, h2, h3⟩
    · exact Or.inl (by rw [heq])
    · right
      refine ⟨k + 1, m, ?_, by simpa using h2, ?_⟩
      · rw [List.take_succ_cons, List.take_succ_cons, h1]
      · rw [pwAt_cons]
        exact h3
  | hit pw s out n hQ h1 h2 hM ih =>
    right
    refine ⟨0, n, by simp, ?_, hQ⟩
    cases rq with
    | nil => cases hr
    | cons r0 rt =>
      have hr0 : r0 = '*' := by simpa using hr
      rw [hr0]
      rfl

theorem take_sub_eq {t s : List Char} {n k : Nat} (h : n ≤ k)
    (ht : t.take k = s.take k) : t.take n = s.take n := by
  apply List.ext
  intro i
  by_cases hi : i < n
  · have h1 : (t.take n).get? i = (t.take k).get? i := by
      rw [lget_take hi, lget_take (show i < k by omega)]
    have h2 : (s.take n).get? i = (s.take k).get? i := by
      rw [lget_take hi, lget_take (show i < k by omega)]
    rw [h1, h2, ht]
  · have h1 : (t.take n).get? i = none := by
      apply List.get?_eq_none.mpr
      have := List.length_take_le n t
      omega
    have h2 : (s.take n).get? i = none := by
      apply List.get?_eq_none.mpr
      have := List.length_take_le n s
      omega
    rw [h1, h2]

theorem match_transfer {P Q : Bool → List Char → Option Nat}
    (fP : MatcherFacts P) (fQ : MatcherFacts Q)
    {pw : Bool} {u u' : List Char} {n : Nat}
    (hagree : u' = u ∨ ∃ k m, u'.take k = u.take k ∧ u'.get? k = some '*' ∧
      Q (pwAt pw u k) (u.drop k) = some m)
    (hP : P pw u' = some n) : P pw u = some n := by
  rcases hagree with heq | ⟨k, m, htake, hstar, hQ⟩
  · rw [← heq]
    exact hP
  · have hb := fP.bounds _ _ _ hP
    by_cases hnk : n < k
    · refine fP.stable _ _ _ _ hP ?_ (Or.inl ?_)
      · exact (take_sub_eq (by omega) htake).symm
      · have h1 : u.get? n = (u.take k).get? n := (lget_take (by omega)).symm
        have h2 : u'.get? n = (u'.take k).get? n := (lget_take (by omega)).symm
        rw [h1, h2, htake]
    · by_cases hnk2 : n = k
      · subst hnk2
        have hprev : u.take n = u'.take n := htake.symm
        have hlast : wordAt u' (n - 1) = true := fP.lastWord _ _ _ hP
        have hlastu : wordAt u (n - 1) = true := by
          have hg : u.get? (n - 1) = u'.get? (n - 1) := by
            have h1 : u.get? (n - 1) = (u.take n).get? (n - 1) := (lget_take (by omega)).symm
            have h2 : u'.get? (n - 1) = (u'.take n).get? (n - 1) := (lget_take (by omega)).symm
            rw [h1, h2, htake]
          unfold wordAt at hlast ⊢
          rw [hg]
          exact hlast
        have hQb := fQ.bounds _ _ _ hQ
        cases hd : u.drop n with
        | nil =>
          rw [hd] at hQ
          rw [matcher_nil fQ] at hQ
          cases hQ
        | cons ch rest =>
          rw [hd] at hQ
          have hlead := fQ.lead _ _ _ _ hQ
          have hpwn : pwAt pw u n = true := by
            unfold pwAt
            rw [if_neg (by omega)]
            exact hlastu
          have hch : isWordCh ch = false := by
            rw [hpwn] at hlead
            cases hv : isWordCh ch
            · rfl
            · exact absurd hv.symm hlead
          have hgetn : u.get? n = some ch := by
            rw [← head?_drop, hd]
            rfl
          refine fP.stable _ _ _ _ hP hprev (Or.inr ⟨?_, ?_⟩)
          · unfold wordAt
            rw [hgetn]
            exact hch
          · unfold wordAt
            rw [hstar]
            rfl
      · exact absurd hstar (fP.noStar _ _ _ hP k (by omega))

theorem mrel_clean {P Q : Bool → List Char → Option Nat} (fP : MatcherFacts P)
    (fQ : MatcherFacts Q) {rq : List Char} (hr : ReplOK rq)
    {pw : Bool} {u u' : List Char} (hrel : MRel Q rq pw u u')
    (hu : P = Q ∨ CleanFrom P pw u) : CleanFrom P pw u' := by
  induction hrel with
  | nil pw =>
    intro i
    rw [List.drop_nil]
    exact matcher_nil fP _
  | frag pw c t out hQ hM ih =>
    have hu' : P = Q ∨ CleanFrom P (isWordCh c) t := by
      rcases hu with he | hcf
      · exact Or.inl he
      · right
        intro i
        have h2 := hcf (i + 1)
        rw [pwAt_cons] at h2
        exact h2
    have ihc := ih hu'
    intro i
    cases i with
    | zero =>
      show P pw (c :: out) = none
      cases hP : P pw (c :: out) with
      | none => rfl
      | some n =>
        exfalso
        have hag := mrel_agree (MRel.frag pw c t out hQ hM) hr.1
        have hPt := match_transfer fP fQ hag hP
        rcases hu with he | hcf
        · rw [he] at hPt
          rw [hQ] at hPt
          cases hPt
        · have h0 : P pw (c :: t) = none := hcf 0
          rw [hPt] at h0
          cases h0
    | succ j =>
      show P (pwAt pw (c :: out) (j + 1)) (out.drop j) = none
      rw [pwAt_cons]
      exact ihc j
  | hit pw s out n hQ h1 h2 hM ih =>
    have hu' : P = Q ∨ CleanFrom P (wordAt s (n - 1)) (s.drop n) := by
      rcases hu with he | hcf
      · exact Or.inl he
      · right
        intro i
        have h3 := hcf (n + i)
        rw [pwAt_drop h1] at h3
        rw [← drop_drop_nat] at h3
        exact h3
    have ihc := ih hu'
    intro i
    by_cases hik : i < rq.length
    · cases hP : P (pwAt pw (rq ++ out) i) ((rq ++ out).drop i) with
      | none => rfl
      | some nn =>
        exfalso
        have hb := fP.bounds _ _ _ hP
        have hg0 : ((rq ++ out).drop i).get? 0 = rq.get? i := by
          rw [lget_drop, Nat.add_zero, get_append_left _ hik]
        rcases hr.2.2 i hik with hstar | hstar | hlen2
        · exact fP.noStar _ _ _ hP 0 (by omega) (by rw [hg0]; exact hstar)
        · have hlt : i + 1 < rq.length := lt_length_of_get hstar
          have hg1 : ((rq ++ out).drop i).get? 1 = rq.get? (i + 1) := by
            rw [lget_drop, get_append_left _ hlt]
          exact fP.noStar _ _ _ hP 1 (by omega) (by rw [hg1]; exact hstar)
        · have hstar := getLast_star hr.2.1 hlen2
          exact fP.noStar _ _ _ hP 0 (by omega) (by rw [hg0]; exact hstar)
    · obtain ⟨j, hj⟩ : ∃ j, i = rq.length + j := ⟨i - rq.length, by omega⟩
      subst hj
      have hdj : (rq ++ out).drop (rq.length + j) = out.drop j := drop_append_right _ _ _
      by_cases hj0 : j = 0
      · subst hj0
        rw [hdj]
        have hL1 : 1 ≤ rq.length := by
          cases rq with
          | nil => cases hr.1
          | cons r0 rt => simp
        have hpj : pwAt pw (rq ++ out) (rq.length + 0) = false := by
          unfold pwAt
          rw [if_neg (by omega)]
          unfold wordAt
          rw [show rq.length + 0 - 1 = rq.length - 1 by omega]
          have hgl : (rq ++ out).get? (rq.length - 1) = some '*' := by
            rw [get_append_left _ (by omega),
              getLast_star hr.2.1 (show rq.length - 1 + 1 = rq.length by omega)]
          rw [hgl]
          decide
        rw [hpj]
        cases hout : out with
        | nil => exact matcher_nil fP _
        | cons c0 r =>
          cases hP : P false ((c0 :: r).drop 0) with
          | none => rfl
          | some nn =>
            exfalso
            have hP' : P false (c0 :: r) = some nn := hP
            have hlead := fP.lead _ _ _ _ hP'
            have hc0w : isWordCh c0 = true := by
              cases hv : isWordCh c0
              · exact absurd hv.symm hlead
              · rfl
            rcases mrel_head hM hr.1 with hnil | ⟨c1, r1, hcons, hcc⟩
            · rw [hnil] at hout
              cases hout
            · rw [hout] at hcons
              have hcc0 : c0 = c1 := by injection hcons
              rcases hcc with hstar | hget
              · rw [hcc0, hstar] at hc0w
                exact absurd hc0w (by decide)
              · rw [lget_drop, Nat.add_zero] at hget
                have hnw := fQ.nextNonword _ _ _ hQ
                have hnw2 : isWordCh c1 = false := by
                  unfold wordAt at hnw
                  rw [hget] at hnw
                  exact hnw
                rw [← hcc0] at hnw2
                rw [hnw2] at hc0w
                cases hc0w
      · rw [hdj]
        have hpj : pwAt pw (rq ++ out) (rq.length + j)
            = pwAt (wordAt s (n - 1)) out j := by
          unfold pwAt
          rw [if_neg (by omega), if_neg hj0]
          unfold wordAt
          rw [show rq.length + j - 1 = rq.length + (j - 1) by omega, get_append_right]
        rw [hpj]
        exact ihc j

theorem maskGo_skip (M : Bool → List Char → Option Nat) (rq : List Char) :
    ∀ (k : Nat) (pw : Bool) (s : List Char), 1 ≤ k → k ≤ s.length →
    maskGo M rq k pw s = maskGo M rq 0 (wordAt s (k - 1)) (s.drop k) := by
  intro k
  induction k with
  | zero =>
    intro pw s h1 _
    omega
  | succ j ih =>
    intro pw s h1 h2
    cases s with
    | nil => simp at h2
    | cons c t =>
      cases j with
      | zero => rfl
      | succ j2 =>
        have hstep := ih (isWordCh c) t (by omega) (by simp at h2; omega)
        calc maskGo M rq (j2 + 1 + 1) pw (c :: t)
            = maskGo M rq (j2 + 1) (isWordCh c) t := rfl
          _ = maskGo M rq 0 (wordAt t (j2 + 1 - 1)) (t.drop (j2 + 1)) := hstep
          _ = maskGo M rq 0 (wordAt (c :: t) (j2 + 1 + 1 - 1)) ((c :: t).drop (j2 + 1 + 1)) := rfl

theorem maskGo_mrel (M : Bool → List Char → Option Nat) (rq : List Char)
    (hM : ∀ pw s n, M pw s = some n → 1 ≤ n ∧ n ≤ s.length) :
    ∀ (m : Nat) (s : List Char), s.length ≤ m → ∀ (pw : Bool),
    MRel M rq pw s (maskGo M rq 0 pw s).1 := by
  intro m
  induction m with
  | zero =>
    intro s hs pw
    cases s with
    | nil => exact MRel.nil pw
    | cons c t => simp at hs
  | succ m ih =>
    intro s hs pw
    cases s with
    | nil => exact MRel.nil pw
    | cons c t =>
      cases hm : M pw (c :: t) with
      | none =>
        have hrec := ih t (by simp at hs; omega) (isWordCh c)
        have heq : (maskGo M rq 0 pw (c :: t)).1
            = c :: (maskGo M rq 0 (isWordCh c) t).1 := by
          simp only [maskGo, hm]
        rw [heq]
        exact MRel.frag pw c t _ hm hrec
      | some n =>
        obtain ⟨hn1, hn2⟩ := hM pw (c :: t) n hm
        have heq : (maskGo M rq 0 pw (c :: t)).1
            = rq ++ (maskGo M rq (n - 1) (isWordCh c) t).1 := by
          simp only [maskGo, hm]
        rw [heq]
        by_cases hone : n = 1
        · subst hone
          have hrec := ih t (by simp at hs; omega) (isWordCh c)
          exact MRel.hit pw (c :: t) _ 1 hm (by omega) hn2 hrec
        · have hk1 : 1 ≤ n - 1 := by omega
          have hk2 : n - 1 ≤ t.length := by simp at hn2; omega
          rw [maskGo_skip M rq (n - 1) (isWordCh c) t hk1 hk2]
          have hrec := ih (t.drop (n - 1))
            (by rw [List.length_drop]; simp at hs; omega) (wordAt t (n - 1 - 1))
          have e1 : wordAt (c :: t) (n - 1) = wordAt t (n - 1 - 1) := by
            unfold wordAt
            rw [show n - 1 = (n - 1 - 1) + 1 by omega]
            rfl
          have e2 : (c :: t).drop n = t.drop (n - 1) := by
            rw [show n = (n - 1) + 1 by omega]
            simp
          refine MRel.hit pw (c :: t) _ n hm hn1 hn2 ?_
          rw [e1, e2]
          exact hrec

theorem maskGo_of_clean {P : Bool → List Char → Option Nat} {rq : List Char} :
    ∀ {s : List Char} {pw : Bool}, CleanFrom P pw s → maskGo P rq 0 pw s = (s, false) := by
  intro s
  induction s with
  | nil =>
    intro pw _
    rfl
  | cons c t ih =>
    intro pw hcf
    have h0 : P pw (c :: t) = none := hcf 0
    have htail : CleanFrom P (isWordCh c) t := by
      intro i
      have h2 := hcf (i + 1)
      rw [pwAt_cons] at h2
      exact h2
    simp only [maskGo, h0, ih htail]

theorem replOK_phone : ReplOK PHONE_REPL := by
  refine ⟨rfl, rfl, ?_⟩
  decide

theorem replOK_email : ReplOK EMAIL_REPL := by
  refine ⟨rfl, rfl, ?_⟩
  decide

theorem replOK_ssn : ReplOK SSN_REPL := by
  refine ⟨rfl, rfl, ?_⟩
  decide

theorem replOK_dob : ReplOK DOB_REPL := by
  refine ⟨rfl, rfl, ?_⟩
  decide

/-- Claim C5: PII masking is idempotent — for every input text, running
`pii_middleware` on the `masked_text` of a previous `pii_middleware` run
returns the same text unchanged, with `pii_detected = false` and an empty
`pii_types` list; and none of the four replacement strings matches any of
the four PII patterns. -/
theorem C5_pii_masking_idempotent (text : String) :
    (pii_middleware (pii_middleware text).masked_text).masked_text
        = (pii_middleware text).masked_text ∧
    (pii_middleware (pii_middleware text).masked_text).pii_detected = false ∧
    (pii_middleware (pii_middleware text).masked_text).pii_types = ([] : List String) ∧
    replacement_pii_free = true := by
  have bP : ∀ pw s n, tryPhone pw s = some n → 1 ≤ n ∧ n ≤ s.length := by
    intro pw s n h
    have h2 := facts_phone.bounds pw s n h
    exact ⟨by omega, h2.2⟩
  have bE : ∀ pw s n, tryEmail pw s = some n → 1 ≤ n ∧ n ≤ s.length := by
    intro pw s n h
    have h2 := facts_email.bounds pw s n h
    exact ⟨by omega, h2.2⟩
  have bS : ∀ pw s n, trySSN pw s = some n → 1 ≤ n ∧ n ≤ s.length := by
    intro pw s n h
    have h2 := facts_ssn.bounds pw s n h
    exact ⟨by omega, h2.2⟩
  have bD : ∀ pw s n, tryDOB pw s = some n → 1 ≤ n ∧ n ≤ s.length := by
    intro pw s n h
    have h2 := facts_dob.bounds pw s n h
    exact ⟨by omega, h2.2⟩
  have rel1 : MRel tryPhone PHONE_REPL false text.data
      (maskSub tryPhone PHONE_REPL text.data).1 :=
    maskGo_mrel tryPhone PHONE_REPL bP text.data.length text.data (Nat.le_refl _) false
  set t1 := (maskSub tryPhone PHONE_REPL text.data).1 with ht1
  have c1p : CleanFrom tryPhone false t1 :=
    mrel_clean facts_phone facts_phone replOK_phone rel1 (Or.inl rfl)
  have rel2 : MRel tryEmail EMAIL_REPL false t1 (maskSub tryEmail EMAIL_REPL t1).1 :=
    maskGo_mrel tryEmail EMAIL_REPL bE t1.length t1 (Nat.le_refl _) false
  set t2 := (maskSub tryEmail EMAIL_REPL t1).1 with ht2
  have c2e : CleanFrom tryEmail false t2 :=
    mrel_clean facts_email facts_email replOK_email rel2 (Or.inl rfl)
  have c2p : CleanFrom tryPhone false t2 :=
    mrel_clean facts_phone facts_email replOK_email rel2 (Or.inr c1p)
  have rel3 : MRel trySSN SSN_REPL false t2 (maskSub trySSN SSN_REPL t2).1 :=
    maskGo_mrel trySSN SSN_REPL bS t2.length t2 (Nat.le_refl _) false
  set t3 := (maskSub trySSN SSN_REPL t2).1 with ht3
  have c3s : CleanFrom trySSN false t3 :=
    mrel_clean facts_ssn facts_ssn replOK_ssn rel3 (Or.inl rfl)
  have c3e : CleanFrom tryEmail false t3 :=
    mrel_clean facts_email facts_ssn replOK_ssn rel3 (Or.inr c2e)
  have c3p : CleanFrom tryPhone false t3 :=
    mrel_clean facts_phone facts_ssn replOK_ssn rel3 (Or.inr c2p)
  have rel4 : MRel tryDOB DOB_REPL false t3 (maskSub tryDOB DOB_REPL t3).1 :=
    maskGo_mrel tryDOB DOB_REPL bD t3.length t3 (Nat.le_refl _) false
  set t4 := (maskSub tryDOB DOB_REPL t3).1 with ht4
  have c4d : CleanFrom tryDOB false t4 :=
    mrel_clean facts_dob facts_dob replOK_dob rel4 (Or.inl rfl)
  have c4s : CleanFrom trySSN false t4 :=
    mrel_clean facts_ssn facts_dob replOK_dob rel4 (Or.inr c3s)
  have c4e : CleanFrom tryEmail false t4 :=
    mrel_clean facts_email facts_dob replOK_dob rel4 (Or.inr c3e)
  have c4p : CleanFrom tryPhone false t4 :=
    mrel_clean facts_phone facts_dob replOK_dob rel4 (Or.inr c3p)
  have m1 : maskSub tryPhone PHONE_REPL t4 = (t4, false) := maskGo_of_clean c4p
  have m2 : maskSub tryEmail EMAIL_REPL t4 = (t4, false) := maskGo_of_clean c4e
  have m3 : maskSub trySSN SSN_REPL t4 = (t4, false) := maskGo_of_clean c4s
  have m4 : maskSub tryDOB DOB_REPL t4 = (t4, false) := maskGo_of_clean c4d
  have hmt : (pii_middleware text).masked_text = String.mk t4 := by
    rw [ht4, ht3, ht2, ht1]
    rfl
  have hd : (String.mk t4).data = t4 := rfl
  have hsecond : pii_middleware (String.mk t4) =
      { original_text := String.mk t4, masked_text := String.mk t4,
        pii_detected := false, pii_types := [] } := by
    simp [pii_middleware, hd, m1, m2, m3, m4]
  refine ⟨?_, ?_, ?_, ?_⟩
  · rw [hmt, hsecond]
  · rw [hmt, hsecond]
  · rw [hmt, hsecond]
  · decide
